import Mathlib

/-!
Shallow embedding of the commerce settlement engine of the corepath backend
(order service, points ledger, coupon validation, inventory updates, payment
processing, referral attribution), together with theorems checking the
specification's claims against it.

Conventions used throughout:
* money amounts (`Float` columns) are rationals `ℚ`,
* timestamps (`datetime`) and ids are integers `ℤ`,
* nullable columns are `Option`,
* each ORM model becomes a structure, each service method a pure function
  from the relevant slice of database state to an `Except`-wrapped result
  (a raised `HTTPException` is an `.error`).
-/

/-- Python `int(x)` on a rational value: truncation toward zero
(`Int.tdiv` truncates toward zero, and `q.den > 0`). -/
def pyInt (q : ℚ) : ℤ := q.num.tdiv q.den

/-- Python `str.upper()`: uppercase every character. -/
def pyUpper (s : String) : String := String.mk (s.data.map Char.toUpper)

/-- Python `str.lower()`: lowercase every character. -/
def pyLower (s : String) : String := String.mk (s.data.map Char.toLower)

/-- Python truthiness of an `Optional[int]` column: `None` and `0` are falsy. -/
def optIntTruthy : Option ℤ → Bool
  | none => false
  | some n => n != 0

/-- Python truthiness of an `Optional[float]` column: `None` and `0.0` are falsy. -/
def optRatTruthy : Option ℚ → Bool
  | none => false
  | some q => q != 0

/-! ## Points ledger: `app/models/user.py`, `UserProfile` -/

/-- Points-related columns of `UserProfile` (`app/models/user.py`). -/
structure UserProfile where
  total_points_earned : ℤ
  current_points_balance : ℤ
  total_points_spent : ℤ
  deriving Repr, DecidableEq

/-- `UserProfile.add_points`: add points to the user's balance. -/
def UserProfile.add_points (p : UserProfile) (points : ℤ) : UserProfile :=
  { p with
    current_points_balance := p.current_points_balance + points
    total_points_earned := p.total_points_earned + points }

/-- `UserProfile.spend_points`: spend points if the user has enough balance;
returns the updated profile and the method's boolean result. -/
def UserProfile.spend_points (p : UserProfile) (points : ℤ) : UserProfile × Bool :=
  if p.current_points_balance ≥ points then
    ({ p with
        current_points_balance := p.current_points_balance - points
        total_points_spent := p.total_points_spent + points }, true)
  else (p, false)

/-- `UserProfile.can_spend_points`. -/
def UserProfile.can_spend_points (p : UserProfile) (points : ℤ) : Bool :=
  p.current_points_balance ≥ points

/-- The points-account invariant stated by the spec:
`current_balance = total_earned - total_spent` and `current_balance ≥ 0`. -/
def pointsInvariant (p : UserProfile) : Prop :=
  p.current_points_balance = p.total_points_earned - p.total_points_spent ∧
  0 ≤ p.current_points_balance

/-! ## Order status state machine: `app/services/order_service.py` -/

/-- `OrderStatus` enumeration (`app/models/order.py`). -/
inductive OrderStatus where
  | pending
  | processing
  | shipped
  | delivered
  | cancelled
  | refunded
  deriving Repr, DecidableEq

/-- Service-level errors; a raised `HTTPException` in the Python service is
modelled as one of these. -/
inductive SvcError where
  | userNotFound
  | productNotFound (pid : ℤ)
  | outOfStock (pid : ℤ)
  | variantNotFound (vid : ℤ)
  | variantUnavailable (vid : ℤ)
  | insufficientStock (pid : ℤ) (available : ℤ)
  | invalidCouponCode
  | couponNotValid
  | couponUsageLimitExceeded
  | couponMinimumNotMet
  | insufficientPoints (available : ℤ)
  | orderNotFound
  | paymentNotFound
  | cannotCancel
  | invalidStatusTransition (src dst : OrderStatus)
  deriving Repr, DecidableEq

/-- The `valid_transitions` table of
`OrderService._is_valid_status_transition`. -/
def valid_transitions : OrderStatus → List OrderStatus
  | .pending => [.processing, .cancelled]
  | .processing => [.shipped, .cancelled]
  | .shipped => [.delivered]
  | .delivered => [.refunded]
  | .cancelled => []
  | .refunded => []

/-- `OrderService._is_valid_status_transition`. -/
def is_valid_status_transition (src dst : OrderStatus) : Bool :=
  (valid_transitions src).contains dst

/-- The status-change handling of `OrderService.update_order`
(lines 304-314): when the requested status differs from the current one the
transition is validated, and an invalid transition raises before any field of
the order is modified; requesting the current status skips validation and
rewrites the same value. -/
def update_order_status (current requested : OrderStatus) :
    Except SvcError OrderStatus :=
  if requested ≠ current then
    if is_valid_status_transition current requested then Except.ok requested
    else Except.error (SvcError.invalidStatusTransition current requested)
  else Except.ok current

/-- The six transitions the spec's state machine allows. -/
def specAllowedTransitions : List (OrderStatus × OrderStatus) :=
  [(.pending, .processing), (.pending, .cancelled),
   (.processing, .shipped), (.processing, .cancelled),
   (.shipped, .delivered), (.delivered, .refunded)]

/-! ## Catalog: `app/models/product.py` -/

/-- The columns of `Product` that the order service reads or writes. -/
structure Product where
  id : ℤ
  name : String
  short_description : Option String
  price : ℚ
  inventory_count : ℤ
  track_inventory : Bool
  allow_backorder : Bool
  is_digital : Bool
  purchase_count : ℤ
  primary_image : Option String
  sku : Option String
  deriving Repr, DecidableEq

/-- `Product.is_in_stock`: untracked products are always in stock; tracked
ones are in stock when inventory is positive or backorder is allowed. -/
def Product.is_in_stock (p : Product) : Bool :=
  if !p.track_inventory then true
  else decide (p.inventory_count > 0) || p.allow_backorder

/-- `Product.decrease_inventory`: clamps at zero. -/
def Product.decrease_inventory (p : Product) (quantity : ℤ) : Product :=
  if p.track_inventory then
    { p with inventory_count := max 0 (p.inventory_count - quantity) }
  else p

/-- `Product.increase_inventory`. -/
def Product.increase_inventory (p : Product) (quantity : ℤ) : Product :=
  if p.track_inventory then
    { p with inventory_count := p.inventory_count + quantity }
  else p

/-- `Product.increment_purchase_count`. -/
def Product.increment_purchase_count (p : Product) (quantity : ℤ) : Product :=
  { p with purchase_count := p.purchase_count + quantity }

/-- The columns of `ProductVariant` that the order service reads or writes. -/
structure ProductVariant where
  id : ℤ
  product_id : ℤ
  name : String
  price_modifier : ℚ
  inventory_count : ℤ
  is_active : Bool
  deriving Repr, DecidableEq

/-- `ProductVariant.final_price`: base product price plus the modifier. -/
def ProductVariant.final_price (v : ProductVariant) (product_price : ℚ) : ℚ :=
  product_price + v.price_modifier

/-- `ProductVariant.is_in_stock`: positive inventory, regardless of the parent
product's `track_inventory` or `allow_backorder` flags. -/
def ProductVariant.is_in_stock (v : ProductVariant) : Bool :=
  decide (v.inventory_count > 0)

/-- The catalog slice of the database: products and variants looked up by id
(`db.query(...).filter(... == id).first()`). -/
structure Store where
  prod : ℤ → Option Product
  var : ℤ → Option ProductVariant

/-- Point update of the product table. -/
def Store.updateProd (s : Store) (pid : ℤ) (p : Product) : Store :=
  { s with prod := fun j => if j = pid then some p else s.prod j }

/-- Point update of the variant table. -/
def Store.updateVar (s : Store) (vid : ℤ) (v : ProductVariant) : Store :=
  { s with var := fun j => if j = vid then some v else s.var j }

/-! ## Coupons: `app/models/order.py` (`Coupon`, `CouponUsage`) -/

/-- The columns of `Coupon` read or written by the order service. -/
structure Coupon where
  id : ℤ
  code : String
  discount_type : String
  discount_value : ℚ
  minimum_order_amount : Option ℚ
  maximum_discount_amount : Option ℚ
  usage_limit : Option ℤ
  usage_limit_per_user : Option ℤ
  usage_count : ℤ
  valid_from : Option ℤ
  valid_until : Option ℤ
  is_active : Bool
  deriving Repr, DecidableEq

/-- `Coupon.is_valid` at time `now`. Each `if cond: return False` guard uses
Python truthiness, so a `usage_limit` of `None` or `0` disables the global
usage check. -/
def Coupon.is_valid (c : Coupon) (now : ℤ) : Bool :=
  if !c.is_active then false
  else if (match c.valid_from with
           | some t => decide (now < t)
           | none => false) then false
  else if (match c.valid_until with
           | some t => decide (now > t)
           | none => false) then false
  else if optIntTruthy c.usage_limit &&
          decide (c.usage_count ≥ c.usage_limit.getD 0) then false
  else true

/-- `Coupon.calculate_discount` for a given order amount at time `now`. -/
def Coupon.calculate_discount (c : Coupon) (now : ℤ) (order_amount : ℚ) : ℚ :=
  if !c.is_valid now then 0
  else if optRatTruthy c.minimum_order_amount &&
          decide (order_amount < c.minimum_order_amount.getD 0) then 0
  else
    let discount :=
      if c.discount_type = "percentage" then
        order_amount * (c.discount_value / 100)
      else
        c.discount_value
    let discount :=
      if optRatTruthy c.maximum_discount_amount then
        min discount (c.maximum_discount_amount.getD 0)
      else discount
    min discount order_amount

/-- A row of the `coupon_usage` table. -/
structure CouponUsage where
  coupon_id : ℤ
  user_id : ℤ
  order_id : ℤ
  discount_amount : ℚ
  deriving Repr, DecidableEq

/-! ## Order service pure helpers: `app/services/order_service.py` -/

/-- The `product_snapshot` dict built in `create_order` (lines 99-105). Its
keys are exactly `id`, `name`, `description`, `price`, `image_url`. -/
structure ProductSnapshot where
  id : ℤ
  name : String
  description : Option String
  price : ℚ
  image_url : Option String
  deriving Repr, DecidableEq

/-- The dict built for each order line in `create_order` and then persisted
as an `OrderItem` row. -/
structure OrderItemRec where
  product_id : ℤ
  variant_id : Option ℤ
  product_name : String
  product_sku : Option String
  variant_name : Option String
  quantity : ℤ
  unit_price : ℚ
  total_price : ℚ
  product_snapshot : ProductSnapshot
  deriving Repr, DecidableEq

/-- `item.get('product_snapshot', dict()).get('is_digital', False)` from
`_calculate_shipping_cost`: the snapshot dict contains only the keys
`id`, `name`, `description`, `price`, `image_url`, so the `is_digital`
lookup always falls back to the default `False`. -/
def snapshotIsDigitalLookup (_ : ProductSnapshot) : Bool := false

/-- `OrderService._calculate_shipping_cost`: free when every item's snapshot
reports digital, otherwise a (method, country) table. `country` is the
`country` entry of the shipping address dict, lowercased. -/
def calculate_shipping_cost (method : String) (items : List OrderItemRec)
    (country : String) : ℚ :=
  let all_digital := items.all (fun it => snapshotIsDigitalLookup it.product_snapshot)
  if all_digital then 0
  else
    let c := pyLower country
    if method = "standard" then (if c = "kenya" then 10 else 25)
    else if method = "express" then (if c = "kenya" then 25 else 50)
    else if method = "overnight" then (if c = "kenya" then 50 else 100)
    else 10

/-- `OrderService._apply_coupon`, given the coupon found for the submitted
code and the user's prior usage count from the `coupon_usage` ledger. -/
def apply_coupon (c : Coupon) (now : ℤ) (order_amount : ℚ)
    (user_usage_count : ℤ) : Except SvcError (Coupon × ℚ) :=
  if !c.is_valid now then Except.error SvcError.couponNotValid
  else if optIntTruthy c.usage_limit_per_user &&
          decide (user_usage_count ≥ c.usage_limit_per_user.getD 0) then
    Except.error SvcError.couponUsageLimitExceeded
  else
    let discount_amount := c.calculate_discount now order_amount
    if discount_amount = 0 then Except.error SvcError.couponMinimumNotMet
    else Except.ok (c, discount_amount)

/-- The hard-coded points value of `_apply_points_discount`
(1 point = 0.01 KES). -/
def points_value : ℚ := 1 / 100

/-- `OrderService._apply_points_discount`: rejects requests above the user's
balance, caps the discount at `order_amount`, and recomputes the points
actually consumed from the capped discount with Python `int()`. -/
def apply_points_discount (points_requested : ℤ) (order_amount : ℚ)
    (available_points : ℤ) : Except SvcError (ℚ × ℤ) :=
  if points_requested > available_points then
    Except.error (SvcError.insufficientPoints available_points)
  else
    let max_discount := order_amount
    let requested_discount := (points_requested : ℚ) * points_value
    let actual_discount := min requested_discount max_discount
    let actual_points_used := pyInt (actual_discount / points_value)
    Except.ok (actual_discount, actual_points_used)

/-! ## Order creation and cancellation: `OrderService.create_order` /
`OrderService.cancel_order` -/

/-- `OrderItemCreate` request schema (`app/schemas/order.py`): the schema
validates `quantity ≥ 1`. -/
structure OrderItemCreate where
  product_id : ℤ
  variant_id : Option ℤ
  quantity : ℤ
  deriving Repr, DecidableEq

/-- The slice of the shipping-address dict the order engine reads
(`address.get('country', '')` in `_calculate_shipping_cost`). -/
structure ShippingAddressRec where
  country : String
  deriving Repr, DecidableEq

/-- `OrderCreate` request schema fields consumed by the settlement engine;
the schema validates `use_points ≥ 0` and at least one item. -/
structure OrderCreateData where
  items : List OrderItemCreate
  shipping_address : ShippingAddressRec
  shipping_method : String
  use_points : Option ℤ
  coupon_code : Option String
  deriving Repr, DecidableEq

/-- The columns of `User` (with its joined profile) read by `create_order`. -/
structure UserRec where
  id : ℤ
  email : String
  full_name : String
  phone : Option String
  profile : Option UserProfile
  deriving Repr, DecidableEq

/-- The `orders` row assembled and persisted by `create_order`, together with
its `OrderItem` rows. -/
structure OrderRec where
  order_number : String
  user_id : ℤ
  customer_email : String
  customer_name : String
  customer_phone : Option String
  status : OrderStatus
  subtotal : ℚ
  tax_amount : ℚ
  shipping_amount : ℚ
  discount_amount : ℚ
  points_discount : ℚ
  total_amount : ℚ
  shipping_method : String
  points_earned : ℤ
  points_used : ℤ
  items : List OrderItemRec
  deriving Repr, DecidableEq

/-- `settings.ORDER_POINTS_RATE` (`app/core/config.py`): 0.01. -/
def ORDER_POINTS_RATE : ℚ := 1 / 100

/-- The database state threaded through `create_order`/`cancel_order`. -/
structure Env where
  store : Store
  users : ℤ → Option UserRec
  coupons : List Coupon
  coupon_usage : List CouponUsage
  now : ℤ

/-- Per-line validation and pricing of `create_order` (lines 42-109):
product lookup, `is_in_stock` gate, variant lookup (by variant id and product
id) with availability gate, the inventory check against the current available
quantity, and the frozen order-line snapshot. -/
def validate_item (s : Store) (it : OrderItemCreate) :
    Except SvcError OrderItemRec :=
  match s.prod it.product_id with
  | none => Except.error (SvcError.productNotFound it.product_id)
  | some product =>
    if !product.is_in_stock then Except.error (SvcError.outOfStock product.id)
    else
      let variantRes : Except SvcError (Option ProductVariant) :=
        match it.variant_id with
        | none => Except.ok none
        | some vid =>
          match (s.var vid).bind
              (fun v => if v.product_id = it.product_id then some v else none) with
          | none => Except.error (SvcError.variantNotFound vid)
          | some v =>
            if !v.is_in_stock || !v.is_active then
              Except.error (SvcError.variantUnavailable vid)
            else Except.ok (some v)
      match variantRes with
      | Except.error e => Except.error e
      | Except.ok variant =>
        let available_quantity :=
          match variant with
          | some v => v.inventory_count
          | none => product.inventory_count
        if product.track_inventory && decide (available_quantity < it.quantity) then
          Except.error (SvcError.insufficientStock product.id available_quantity)
        else
          let unit_price :=
            match variant with
            | some v => v.final_price product.price
            | none => product.price
          Except.ok
            { product_id := product.id
              variant_id := variant.map (·.id)
              product_name := product.name
              product_sku := product.sku
              variant_name := variant.map (·.name)
              quantity := it.quantity
              unit_price := unit_price
              total_price := unit_price * (it.quantity : ℚ)
              product_snapshot :=
                { id := product.id
                  name := product.name
                  description := product.short_description
                  price := product.price
                  image_url := product.primary_image } }

/-- The item-validation loop of `create_order` (lines 39-109): items are
validated in order and the first failure aborts the whole call. -/
def validate_items (s : Store) : List OrderItemCreate → Except SvcError (List OrderItemRec)
  | [] => Except.ok []
  | it :: rest =>
    match validate_item s it with
    | Except.error e => Except.error e
    | Except.ok rec =>
      match validate_items s rest with
      | Except.error e => Except.error e
      | Except.ok recs => Except.ok (rec :: recs)

/-- The per-item inventory update of `create_order` (lines 174-185): for
tracked products, decrement the variant count (clamped at zero) when a
variant id is present, otherwise `Product.decrease_inventory`, then increment
the product's purchase count. Lookups that failed would be unreachable here
because every item was validated first. -/
def order_decrement_item (s : Store) (it : OrderItemCreate) : Store :=
  match s.prod it.product_id with
  | none => s
  | some product =>
    if product.track_inventory then
      let s1 :=
        match it.variant_id with
        | some vid =>
          match s.var vid with
          | none => s
          | some v =>
            s.updateVar vid
              { v with inventory_count := max 0 (v.inventory_count - it.quantity) }
        | none =>
          s.updateProd it.product_id (product.decrease_inventory it.quantity)
      match s1.prod it.product_id with
      | none => s1
      | some p2 => s1.updateProd it.product_id (p2.increment_purchase_count it.quantity)
    else s

/-- The per-user usage query of `_apply_coupon`:
`db.query(CouponUsage).filter(coupon_id == c.id, user_id == user_id).count()`. -/
def couponUserUsageCount (usages : List CouponUsage) (cid u : ℤ) : ℤ :=
  ((usages.filter
    (fun x => decide (x.coupon_id = cid) && decide (x.user_id = u))).length : ℤ)

/-- `OrderService.create_order`, composed exactly as in the source: user
lookup, per-line validation, shipping, coupon, points discount, flat tax 0,
clamped total, then the persisted mutations (inventory decrements, points
spend, coupon usage row and counter). `order_id` and `order_number` stand for
the values the database/number generator assigns. -/
def create_order (env : Env) (user_id : ℤ) (od : OrderCreateData)
    (order_id : ℤ) (order_number : String) : Except SvcError (OrderRec × Env) :=
  match env.users user_id with
  | none => Except.error SvcError.userNotFound
  | some user =>
  match validate_items env.store od.items with
  | Except.error e => Except.error e
  | Except.ok order_items =>
  let subtotal := (order_items.map (·.total_price)).sum
  let shipping_amount :=
    calculate_shipping_cost od.shipping_method order_items od.shipping_address.country
  let couponStage : Except SvcError (Option (Coupon × ℚ)) :=
    match od.coupon_code with
    | none => Except.ok none
    | some code =>
      match env.coupons.find? (fun c => decide (c.code = pyUpper code)) with
      | none => Except.error SvcError.invalidCouponCode
      | some c =>
        let user_usage_count : ℤ :=
          couponUserUsageCount env.coupon_usage c.id user_id
        (apply_coupon c env.now subtotal user_usage_count).map some
  match couponStage with
  | Except.error e => Except.error e
  | Except.ok couponApplied =>
  let discount_amount := (couponApplied.map Prod.snd).getD 0
  let pointsStage : Except SvcError (ℚ × ℤ) :=
    if optIntTruthy od.use_points && user.profile.isSome then
      apply_points_discount (od.use_points.getD 0) subtotal
        ((user.profile.map (·.current_points_balance)).getD 0)
    else Except.ok (0, 0)
  match pointsStage with
  | Except.error e => Except.error e
  | Except.ok (points_discount, points_used) =>
  let tax_amount : ℚ := 0
  let total_amount :=
    max 0 (subtotal + shipping_amount + tax_amount - discount_amount - points_discount)
  let order : OrderRec :=
    { order_number := order_number
      user_id := user_id
      customer_email := user.email
      customer_name := user.full_name
      customer_phone := user.phone
      status := .pending
      subtotal := subtotal
      tax_amount := tax_amount
      shipping_amount := shipping_amount
      discount_amount := discount_amount
      points_discount := points_discount
      total_amount := total_amount
      shipping_method := od.shipping_method
      points_earned := pyInt (total_amount * ORDER_POINTS_RATE)
      points_used := points_used
      items := order_items }
  let store' := od.items.foldl order_decrement_item env.store
  let users' : ℤ → Option UserRec :=
    if decide (points_used > 0) && user.profile.isSome then
      fun j =>
        if j = user_id then
          some { user with
                 profile := user.profile.map (fun pr => (pr.spend_points points_used).1) }
        else env.users j
    else env.users
  let newState : List Coupon × List CouponUsage :=
    match couponApplied with
    | some cd =>
      (env.coupons.map
        (fun x => if x.id = cd.1.id then { x with usage_count := x.usage_count + 1 } else x),
       env.coupon_usage ++ [⟨cd.1.id, user_id, order_id, cd.2⟩])
    | none => (env.coupons, env.coupon_usage)
  Except.ok (order,
    { env with
      store := store'
      users := users'
      coupons := newState.1
      coupon_usage := newState.2 })

/-- `Order.can_cancel`: only pending or processing orders. -/
def OrderRec.can_cancel (o : OrderRec) : Bool :=
  decide (o.status = .pending) || decide (o.status = .processing)

/-- The per-item inventory restoration of `cancel_order` (lines 358-366). -/
def cancel_restore_item (s : Store) (it : OrderItemRec) : Store :=
  match s.prod it.product_id with
  | none => s
  | some product =>
    if product.track_inventory then
      match it.variant_id with
      | some vid =>
        match s.var vid with
        | none => s
        | some v =>
          s.updateVar vid { v with inventory_count := v.inventory_count + it.quantity }
      | none => s.updateProd it.product_id (product.increase_inventory it.quantity)
    else s

/-- `OrderService.cancel_order`: guard on `can_cancel`, set the status to
cancelled, restore per-line inventory and refund any used points to the
order's user. -/
def cancel_order (env : Env) (o : OrderRec) : Except SvcError (OrderRec × Env) :=
  if !o.can_cancel then Except.error SvcError.cannotCancel
  else
    let o' := { o with status := .cancelled }
    let store' := o.items.foldl cancel_restore_item env.store
    let users' : ℤ → Option UserRec :=
      if decide (o.points_used > 0) then
        match env.users o.user_id with
        | some user =>
          match user.profile with
          | some pr =>
            fun j =>
              if j = o.user_id then
                some { user with profile := some (pr.add_points o.points_used) }
              else env.users j
          | none => env.users
        | none => env.users
      else env.users
    Except.ok (o', { env with store := store', users := users' })

/-! ## Payment processing: `OrderService.process_payment` -/

/-- The columns of `Payment`; `status` is a free string column. -/
structure PaymentRec where
  id : ℤ
  order_id : ℤ
  amount : ℚ
  status : String
  external_payment_id : Option String
  failure_reason : Option String
  processed_at : Option ℤ
  deriving Repr, DecidableEq

/-- `Payment.mark_completed`. -/
def PaymentRec.mark_completed (p : PaymentRec) (now : ℤ) : PaymentRec :=
  { p with status := "completed", processed_at := some now }

/-- `Payment.mark_failed`. -/
def PaymentRec.mark_failed (p : PaymentRec) (reason : Option String) (now : ℤ) :
    PaymentRec :=
  { p with status := "failed", failure_reason := reason, processed_at := some now }

/-- An order as seen by the payment flow: its status, total, and payments. -/
structure PayOrder where
  status : OrderStatus
  total_amount : ℚ
  payments : List PaymentRec
  deriving Repr, DecidableEq

/-- `Order.is_paid`: the completed payments sum to at least the total. -/
def PayOrder.is_paid (o : PayOrder) : Bool :=
  decide (((o.payments.filter (fun p => p.status = "completed")).map
    (·.amount)).sum ≥ o.total_amount)

/-- Write back the mutated payment row (the ORM mutates the single object
found by primary key; ids are unique). -/
def PayOrder.setPayment (o : PayOrder) (payment_id : ℤ) (p : PaymentRec) :
    PayOrder :=
  { o with payments := o.payments.map (fun q => if q.id = payment_id then p else q) }

/-- `OrderService.process_payment`: records the provider callback on the
payment and, exactly when the payment completes, the order becomes fully paid
and its status is pending, flips the order to processing.
`details_failure_reason` is `details.get('failure_reason')`. -/
def process_payment (o : PayOrder) (payment_id : ℤ)
    (external_payment_id : String) (st : String)
    (details_failure_reason : Option String) (now : ℤ) :
    Except SvcError PayOrder :=
  match o.payments.find? (fun p => decide (p.id = payment_id)) with
  | none => Except.error SvcError.paymentNotFound
  | some payment =>
    let payment := { payment with external_payment_id := some external_payment_id }
    if st = "completed" then
      let o1 := o.setPayment payment_id (payment.mark_completed now)
      if o1.is_paid && decide (o1.status = OrderStatus.pending) then
        Except.ok { o1 with status := .processing }
      else Except.ok o1
    else if st = "failed" then
      Except.ok (o.setPayment payment_id
        (payment.mark_failed details_failure_reason now))
    else
      Except.ok (o.setPayment payment_id { payment with status := st })

/-! ## Referral attribution: `app/models/merchant.py`,
`MerchantService.process_referral_purchase` -/

/-- The columns of `MerchantReferral` used by the attribution flow;
`status` holds `ReferralStatus` values. -/
structure MerchantReferral where
  id : ℤ
  merchant_id : ℤ
  referred_user_id : Option ℤ
  order_id : Option ℤ
  commission_amount : ℚ
  points_awarded : ℤ
  commission_rate : ℚ
  status : String
  clicked_at : ℤ
  registered_at : Option ℤ
  first_purchase_at : Option ℤ
  expires_at : ℤ
  deriving Repr, DecidableEq, Inhabited

/-- `MerchantReferral.is_expired` at time `now`. -/
def MerchantReferral.is_expired (r : MerchantReferral) (now : ℤ) : Bool :=
  decide (now > r.expires_at)

/-- `MerchantReferral.mark_converted`. -/
def MerchantReferral.mark_converted (r : MerchantReferral) (order_id : ℤ)
    (commission_amount : ℚ) (points : ℤ) (now : ℤ) : MerchantReferral :=
  { r with
    order_id := some order_id
    commission_amount := commission_amount
    points_awarded := points
    status := "completed"
    first_purchase_at := some now }

/-- The columns of `Merchant` used by conversion. -/
structure Merchant where
  id : ℤ
  user_id : ℤ
  points_per_referral : ℤ
  total_earnings : ℚ
  total_points_earned : ℤ
  successful_referrals : ℤ
  last_referral_at : Option ℤ
  deriving Repr, DecidableEq

/-- `Merchant.add_earnings`. -/
def Merchant.add_earnings (m : Merchant) (amount : ℚ) (points : ℤ) (now : ℤ) :
    Merchant :=
  { m with
    total_earnings := m.total_earnings + amount
    total_points_earned := m.total_points_earned + points
    successful_referrals := m.successful_referrals + 1
    last_referral_at := some now }

/-- The order columns read by `process_referral_purchase`. -/
structure OrderLite where
  id : ℤ
  user_id : ℤ
  total_amount : ℚ
  order_number : String
  deriving Repr, DecidableEq

/-- Database state for the referral attribution flow. The `merchants` map is
total because `MerchantReferral.merchant_id` is a non-nullable foreign key. -/
structure RefEnv where
  orders : ℤ → Option OrderLite
  referrals : List MerchantReferral
  merchants : ℤ → Merchant
  profiles : ℤ → Option UserProfile
  now : ℤ

/-- First element of a list satisfying `p`, together with its index
(`query.filter(...).first()` over the referral table). -/
def findWithIdx (p : α → Bool) : List α → Option (ℕ × α)
  | [] => none
  | a :: l =>
    if p a then some (0, a)
    else (findWithIdx p l).map (fun ix => (ix.1 + 1, ix.2))

/-- `MerchantService.process_referral_purchase`: look up the order, find the
first pending referral for the order's user, bail out if none or expired,
otherwise mark the referral converted, credit the merchant's earnings, and
award the merchant user's points. Returns the converted referral, if any. -/
def process_referral_purchase (env : RefEnv) (order_id : ℤ) :
    RefEnv × Option MerchantReferral :=
  match env.orders order_id with
  | none => (env, none)
  | some o =>
    match findWithIdx
        (fun r => decide (r.referred_user_id = some o.user_id) &&
                  decide (r.status = "pending")) env.referrals with
    | none => (env, none)
    | some (i, referral) =>
      if referral.is_expired env.now then (env, none)
      else
        let commission_amount := o.total_amount * referral.commission_rate
        let merchant := env.merchants referral.merchant_id
        let points_awarded := merchant.points_per_referral
        let referral' :=
          referral.mark_converted o.id commission_amount points_awarded env.now
        let merchant' := merchant.add_earnings commission_amount points_awarded env.now
        let profiles' :=
          match env.profiles merchant.user_id with
          | some pr =>
            fun j =>
              if j = merchant.user_id then some (pr.add_points points_awarded)
              else env.profiles j
          | none => env.profiles
        ({ env with
           referrals := env.referrals.set i referral'
           merchants := fun j =>
             if j = referral.merchant_id then merchant' else env.merchants j
           profiles := profiles' }, some referral')

/-! ## Projections used to state inventory preservation -/

/-- The (track flag, inventory count) view of a product row. -/
def prodView (s : Store) (pid : ℤ) : Option (Bool × ℤ) :=
  (s.prod pid).map (fun p => (p.track_inventory, p.inventory_count))

/-- The (parent product, inventory count) view of a variant row. -/
def varView (s : Store) (vid : ℤ) : Option (ℤ × ℤ) :=
  (s.var vid).map (fun v => (v.product_id, v.inventory_count))

/-- The track flag of a product row. -/
def prodTrack (s : Store) (pid : ℤ) : Option Bool :=
  (s.prod pid).map (fun p => p.track_inventory)

/-- The inventory counter a request line addresses: the variant's when a
variant id is present, the product's otherwise. -/
def itemKey (it : OrderItemCreate) : ℤ × Option ℤ :=
  (it.product_id, it.variant_id)

/-- The counter an order line addresses. -/
def recKey (r : OrderItemRec) : ℤ × Option ℤ :=
  (r.product_id, r.variant_id)

/-- Row-lookup consistency of the store: a row found under an id carries that
id (primary-key integrity). -/
def Store.WF (s : Store) : Prop :=
  (∀ pid p, s.prod pid = some p → p.id = pid) ∧
  (∀ vid v, s.var vid = some v → v.id = vid)

/-- The facts per-line validation establishes about the catalog: the product
row exists, the variant row (when requested) exists and belongs to the
product, and for tracked products the addressed counter covers the
quantity. -/
def itemStockOK (s : Store) (it : OrderItemCreate) : Prop :=
  ∃ p, s.prod it.product_id = some p ∧
    match it.variant_id with
    | none => p.track_inventory = true → it.quantity ≤ p.inventory_count
    | some vid => ∃ v, s.var vid = some v ∧ v.product_id = it.product_id ∧
        (p.track_inventory = true → it.quantity ≤ v.inventory_count)

/-! ## Concrete fixtures used by counterexamples and witnesses -/

/-- A tracked physical product: price 10, five units in stock. -/
def exProd : Product :=
  { id := 1
    name := "toolkit"
    short_description := none
    price := 10
    inventory_count := 5
    track_inventory := true
    allow_backorder := false
    is_digital := false
    purchase_count := 0
    primary_image := none
    sku := none }

/-- A catalog holding just `exProd`. -/
def exStore : Store :=
  { prod := fun j => if j = 1 then some exProd else none
    var := fun _ => none }

/-- A user with 1000 points of balance. -/
def exUser : UserRec :=
  { id := 7
    email := "u@example.com"
    full_name := "User"
    phone := none
    profile := some ⟨1000, 1000, 0⟩ }

/-- An unrestricted fixed-amount coupon worth 5. -/
def exCoupon : Coupon :=
  { id := 3
    code := "SAVE5"
    discount_type := "fixed_amount"
    discount_value := 5
    minimum_order_amount := none
    maximum_discount_amount := none
    usage_limit := none
    usage_limit_per_user := none
    usage_count := 0
    valid_from := none
    valid_until := none
    is_active := true }

/-- Database state with `exProd`, `exUser` and `exCoupon`. -/
def exEnv : Env :=
  { store := exStore
    users := fun j => if j = 7 then some exUser else none
    coupons := [exCoupon]
    coupon_usage := []
    now := 100 }

/-- Checkout input: one unit of product 1, coupon `save5`, 800 points. -/
def exOd : OrderCreateData :=
  { items := [⟨1, none, 1⟩]
    shipping_address := ⟨"Kenya"⟩
    shipping_method := "standard"
    use_points := some 800
    coupon_code := some "save5" }

/-- Checkout input with two separate lines of three units of product 1 each
(inventory is 5, so each line passes validation on its own). -/
def c6Od : OrderCreateData :=
  { items := [⟨1, none, 3⟩, ⟨1, none, 3⟩]
    shipping_address := ⟨"Kenya"⟩
    shipping_method := "standard"
    use_points := none
    coupon_code := none }

/-- Database state for the duplicate-line cancellation counterexample. -/
def c6Env : Env :=
  { store := exStore
    users := fun j => if j = 7 then some exUser else none
    coupons := []
    coupon_usage := []
    now := 100 }

/-- A tracked product with zero inventory that allows backorder. -/
def c7Prod : Product :=
  { id := 1
    name := "toolkit"
    short_description := none
    price := 10
    inventory_count := 0
    track_inventory := true
    allow_backorder := true
    is_digital := false
    purchase_count := 0
    primary_image := none
    sku := none }

/-- A catalog holding just `c7Prod`. -/
def c7Store : Store :=
  { prod := fun j => if j = 1 then some c7Prod else none
    var := fun _ => none }

/-- A coupon whose global usage limit is set to zero. -/
def c8Coupon : Coupon :=
  { id := 3
    code := "SAVE5"
    discount_type := "fixed_amount"
    discount_value := 5
    minimum_order_amount := none
    maximum_discount_amount := none
    usage_limit := some 0
    usage_limit_per_user := none
    usage_count := 0
    valid_from := none
    valid_until := none
    is_active := true }

/-- Database state holding `c8Coupon`. -/
def c8Env : Env :=
  { store := exStore
    users := fun j => if j = 7 then some exUser else none
    coupons := [c8Coupon]
    coupon_usage := []
    now := 100 }

/-- Checkout input redeeming coupon `save5`, no points. -/
def c8Od : OrderCreateData :=
  { items := [⟨1, none, 1⟩]
    shipping_address := ⟨"Kenya"⟩
    shipping_method := "standard"
    use_points := none
    coupon_code := some "save5" }

/-- An untracked, purely digital product. -/
def c9Prod : Product :=
  { id := 1
    name := "ebook"
    short_description := none
    price := 10
    inventory_count := 0
    track_inventory := false
    allow_backorder := false
    is_digital := true
    purchase_count := 0
    primary_image := none
    sku := none }

/-- Database state holding only the digital product. -/
def c9Env : Env :=
  { store :=
      { prod := fun j => if j = 1 then some c9Prod else none
        var := fun _ => none }
    users := fun j => if j = 7 then some exUser else none
    coupons := []
    coupon_usage := []
    now := 100 }

/-- Checkout input: a single digital item shipped standard to Kenya. -/
def c9Od : OrderCreateData :=
  { items := [⟨1, none, 1⟩]
    shipping_address := ⟨"Kenya"⟩
    shipping_method := "standard"
    use_points := none
    coupon_code := none }

/-- A pending payment of 50 against a pending order with total 50. -/
def c10Payment : PaymentRec :=
  { id := 1
    order_id := 9
    amount := 50
    status := "pending"
    external_payment_id := none
    failure_reason := none
    processed_at := none }

/-- The pending order carrying `c10Payment`. -/
def c10Order : PayOrder :=
  { status := .pending
    total_amount := 50
    payments := [c10Payment] }

/-- A referral already completed (for the C1 witness). -/
def c1RefCompleted : MerchantReferral :=
  { id := 1
    merchant_id := 1
    referred_user_id := some 2
    order_id := some 5
    commission_amount := 0
    points_awarded := 0
    commission_rate := 0
    status := "completed"
    clicked_at := 0
    registered_at := none
    first_purchase_at := some 50
    expires_at := 1000 }

/-- A pending referral whose expiry has passed. -/
def c1RefExpired : MerchantReferral :=
  { id := 2
    merchant_id := 1
    referred_user_id := some 2
    order_id := none
    commission_amount := 0
    points_awarded := 0
    commission_rate := 0
    status := "pending"
    clicked_at := 0
    registered_at := none
    first_purchase_at := none
    expires_at := 10 }

/-- The merchant behind the fixture referrals. -/
def c1Merchant : Merchant :=
  { id := 1
    user_id := 3
    points_per_referral := 500
    total_earnings := 0
    total_points_earned := 0
    successful_referrals := 0
    last_referral_at := none }

/-- The delivered order triggering attribution. -/
def c1OrderLite : OrderLite :=
  { id := 5
    user_id := 2
    total_amount := 100
    order_number := "N1" }

/-- Referral database state at time 100. -/
def c1Env : RefEnv :=
  { orders := fun j => if j = 5 then some c1OrderLite else none
    referrals := [c1RefCompleted, c1RefExpired]
    merchants := fun _ => c1Merchant
    profiles := fun _ => none
    now := 100 }

/-- A coupon with positive limits: 5 global uses, 2 per user, used once. -/
def c8PosCoupon : Coupon :=
  { id := 3
    code := "SAVE5"
    discount_type := "fixed_amount"
    discount_value := 5
    minimum_order_amount := none
    maximum_discount_amount := none
    usage_limit := some 5
    usage_limit_per_user := some 2
    usage_count := 1
    valid_from := none
    valid_until := none
    is_active := true }

/-- Database state holding `c8PosCoupon` with one recorded use by user 9. -/
def c8PosEnv : Env :=
  { store := exStore
    users := fun j => if j = 7 then some exUser else none
    coupons := [c8PosCoupon]
    coupon_usage := [⟨3, 9, 40, 5⟩]
    now := 100 }

/-- C2: the points-account invariant `current = earned - spent ∧ current ≥ 0`
is preserved by `add_points` (with a nonnegative amount) and by
`spend_points`, and a `spend_points` call with `points` greater than the
current balance fails and leaves the profile unchanged. -/
theorem claim_C2_points_invariant (p : UserProfile) (points : ℤ)
    (hinv : pointsInvariant p) :
    (0 ≤ points → pointsInvariant (p.add_points points)) ∧
    pointsInvariant (p.spend_points points).1 ∧
    (points > p.current_points_balance →
      p.spend_points points = (p, false)) := by
  obtain ⟨heq, hnn⟩ := hinv
  refine ⟨fun hpts => ⟨?_, ?_⟩, ⟨?_, ?_⟩, fun hgt => ?_⟩
  · simp [UserProfile.add_points, heq]; ring
  · simp [UserProfile.add_points]; omega
  · unfold UserProfile.spend_points
    split <;> simp [heq]; ring
  · unfold UserProfile.spend_points
    split <;> simp <;> omega
  · unfold UserProfile.spend_points
    split
    · omega
    · rfl

/-- Witness for C2 at a concrete profile: balance 30, spend 50 is rejected. -/
theorem claim_C2_points_invariant_witness :
    pointsInvariant ⟨80, 30, 50⟩ ∧
    ((⟨80, 30, 50⟩ : UserProfile).spend_points 50 = (⟨80, 30, 50⟩, false)) := by
  have h := claim_C2_points_invariant ⟨80, 30, 50⟩ 50 (by constructor <;> decide)
  exact ⟨by constructor <;> decide, h.2.2 (by decide)⟩

/-- C5: `_is_valid_status_transition` accepts exactly the six transitions
pending→processing, pending→cancelled, processing→shipped,
processing→cancelled, shipped→delivered, delivered→refunded, and
`update_order` rejects every other requested status change with an
invalid-transition error (leaving the status unchanged, since the error is
raised before any field is written). -/
theorem claim_C5_status_machine :
    (∀ src dst : OrderStatus,
      is_valid_status_transition src dst = true ↔
        (src, dst) ∈ specAllowedTransitions) ∧
    (∀ src dst : OrderStatus, src ≠ dst →
      (src, dst) ∉ specAllowedTransitions →
      update_order_status src dst =
        Except.error (SvcError.invalidStatusTransition src dst)) := by
  constructor
  · intro src dst
    cases src <;> cases dst <;> decide
  · intro src dst hne hnot
    cases src <;> cases dst <;> first
      | exact absurd rfl hne
      | exact absurd (by decide) hnot
      | rfl

/-- Witness for C5: the delivered→processing request from the spec's scenario
is rejected. -/
theorem claim_C5_status_machine_witness :
    update_order_status .delivered .processing =
      Except.error (SvcError.invalidStatusTransition .delivered .processing) :=
  claim_C5_status_machine.2 .delivered .processing (by decide) (by decide)

/-- Helper: Python truncation agrees with the floor for nonnegative values. -/
theorem pyInt_eq_floor (q : ℚ) (hq : 0 ≤ q) : pyInt q = ⌊q⌋ := by
  rw [Rat.floor_def, pyInt]
  have hnum : 0 ≤ q.num := Rat.num_nonneg.mpr hq
  rw [Int.tdiv_eq_ediv hnum (by positivity)]

/-- C3: every successfully created order satisfies
`total_amount = max 0 (subtotal + tax + shipping - discount - points_discount)`. -/
theorem claim_C3_total_clamped (env : Env) (uid : ℤ) (od : OrderCreateData)
    (oid : ℤ) (onum : String) (o : OrderRec) (env' : Env)
    (h : create_order env uid od oid onum = Except.ok (o, env')) :
    o.total_amount =
      max 0 (o.subtotal + o.tax_amount + o.shipping_amount -
        o.discount_amount - o.points_discount) := by
  simp only [create_order] at h
  split at h
  · exact Except.noConfusion h
  split at h
  · exact Except.noConfusion h
  split at h
  · exact Except.noConfusion h
  split at h
  · exact Except.noConfusion h
  injection h with h2
  injection h2 with h3 h4
  subst h3
  simp

/-- Witness for C3 at the concrete fixture order. -/
theorem claim_C3_total_clamped_witness :
    ∃ o env', create_order exEnv 7 exOd 42 "ORD-1" = Except.ok (o, env') ∧
      o.total_amount =
        max 0 (o.subtotal + o.tax_amount + o.shipping_amount -
          o.discount_amount - o.points_discount) := by
  have hok : (create_order exEnv 7 exOd 42 "ORD-1").isOk = true := by
    norm_num [create_order, exEnv, exOd, exStore, exUser, exCoupon, exProd,
      validate_items, validate_item, Product.is_in_stock, calculate_shipping_cost,
      snapshotIsDigitalLookup, apply_coupon, Coupon.is_valid, Coupon.calculate_discount,
      optIntTruthy, optRatTruthy, apply_points_discount, points_value, pyInt,
      Except.map, Option.map, Option.getD, Except.isOk, Except.toBool,
      show pyUpper "save5" = "SAVE5" from by decide,
      show pyLower "Kenya" = "kenya" from by decide,
      show ("fixed_amount" : String) ≠ "percentage" from by decide]
  rcases hc : create_order exEnv 7 exOd 42 "ORD-1" with e | ⟨o, env'⟩
  · rw [hc] at hok
    exact Bool.noConfusion hok
  · exact ⟨o, env', rfl, claim_C3_total_clamped _ _ _ _ _ _ _ hc⟩

/-- C4 counterexample: with subtotal 10, coupon discount 5 and 800 points
requested (unit value 0.01), the code computes a points discount of 8,
whereas the claim's formula `min(points × unit value, subtotal − discount)`
gives `min 8 5 = 5`. -/
theorem claim_C4_points_cap_counterexample :
    (create_order exEnv 7 exOd 42 "ORD-1").map
      (fun r => (r.1.subtotal, r.1.discount_amount, r.1.points_discount,
        r.1.points_used)) = Except.ok (10, 5, 8, 800) ∧
    ¬((8 : ℚ) = min ((800 : ℚ) * points_value) (10 - 5)) := by
  constructor
  · norm_num [create_order, exEnv, exOd, exStore, exUser, exCoupon, exProd,
      validate_items, validate_item, Product.is_in_stock, calculate_shipping_cost,
      snapshotIsDigitalLookup, apply_coupon, Coupon.is_valid, Coupon.calculate_discount,
      optIntTruthy, optRatTruthy, apply_points_discount, points_value, pyInt,
      Except.map, Option.map, Option.getD,
      show pyUpper "save5" = "SAVE5" from by decide,
      show pyLower "Kenya" = "kenya" from by decide,
      show ("fixed_amount" : String) ≠ "percentage" from by decide]
  · norm_num [points_value]

/-- C4 amended: the points discount is capped at the full subtotal (the
coupon discount is not subtracted first), and the points consumed are the
requested discount divided back by the unit value, truncated — which equals
the floor when the inputs are nonnegative (as the request schema guarantees). -/
theorem claim_C4_points_discount (env : Env) (uid : ℤ) (od : OrderCreateData)
    (oid : ℤ) (onum : String) (o : OrderRec) (env' : Env) (user : UserRec)
    (prof : UserProfile)
    (huser : env.users uid = some user) (hprof : user.profile = some prof)
    (hup : optIntTruthy od.use_points = true)
    (h : create_order env uid od oid onum = Except.ok (o, env')) :
    o.points_discount = min ((od.use_points.getD 0 : ℚ) * points_value) o.subtotal ∧
    o.points_used = pyInt (o.points_discount / points_value) ∧
    (0 ≤ od.use_points.getD 0 → 0 ≤ o.subtotal →
      o.points_used = ⌊o.points_discount / points_value⌋) := by
  simp only [create_order, huser, hprof, hup, Option.isSome_some, Bool.and_self,
    Bool.true_and, Bool.and_true, if_true, Option.map_some', Option.getD_some] at h
  split at h
  · exact Except.noConfusion h
  split at h
  · exact Except.noConfusion h
  split at h
  · exact Except.noConfusion h
  rename_i pd pu hps
  simp only [apply_points_discount] at hps
  split at hps
  · exact Except.noConfusion hps
  injection hps with hps2
  injection hps2 with hpd hpu
  injection h with h2
  injection h2 with h3 h4
  subst h3
  subst hpd
  subst hpu
  refine ⟨rfl, rfl, fun hpts hsub => ?_⟩
  have h1 : (0 : ℚ) ≤ (od.use_points.getD 0 : ℚ) * points_value := by
    have h0 : (0 : ℚ) ≤ (od.use_points.getD 0 : ℚ) := by exact_mod_cast hpts
    exact mul_nonneg h0 (by norm_num [points_value])
  have h2 : (0 : ℚ) ≤ points_value⁻¹ := by norm_num [points_value]
  exact pyInt_eq_floor _ (div_nonneg (le_min h1 hsub) (by norm_num [points_value]))

/-- Witness for C4 at the concrete fixture order (800 points requested on a
balance of 1000, subtotal 10, coupon discount 5). -/
theorem claim_C4_points_discount_witness :
    ∃ o env', create_order exEnv 7 exOd 42 "ORD-1" = Except.ok (o, env') ∧
      (o.points_discount =
        min ((exOd.use_points.getD 0 : ℚ) * points_value) o.subtotal ∧
       o.points_used = pyInt (o.points_discount / points_value) ∧
       (0 ≤ exOd.use_points.getD 0 → 0 ≤ o.subtotal →
         o.points_used = ⌊o.points_discount / points_value⌋)) := by
  have hok : (create_order exEnv 7 exOd 42 "ORD-1").isOk = true := by
    norm_num [create_order, exEnv, exOd, exStore, exUser, exCoupon, exProd,
      validate_items, validate_item, Product.is_in_stock, calculate_shipping_cost,
      snapshotIsDigitalLookup, apply_coupon, Coupon.is_valid, Coupon.calculate_discount,
      optIntTruthy, optRatTruthy, apply_points_discount, points_value, pyInt,
      Except.map, Option.map, Option.getD, Except.isOk, Except.toBool,
      show pyUpper "save5" = "SAVE5" from by decide,
      show pyLower "Kenya" = "kenya" from by decide,
      show ("fixed_amount" : String) ≠ "percentage" from by decide]
  rcases hc : create_order exEnv 7 exOd 42 "ORD-1" with e | ⟨o, env'⟩
  · rw [hc] at hok
    exact Bool.noConfusion hok
  · exact ⟨o, env', rfl,
      claim_C4_points_discount exEnv 7 exOd 42 "ORD-1" o env' exUser ⟨1000, 1000, 0⟩
        (by simp [exEnv]) rfl (by decide) hc⟩

/-- C9 (code bug evidence): an order whose only line is a digital product is
still charged the standard Kenya shipping rate of 10, because the
`product_snapshot` dict assembled by `create_order` has no `is_digital` key,
so the all-digital test in `_calculate_shipping_cost` never fires. -/
theorem claim_C9_digital_shipping_bug :
    (c9Env.store.prod 1).map Product.is_digital = some true ∧
    c9Od.items = [⟨1, none, 1⟩] ∧
    (create_order c9Env 7 c9Od 42 "ORD-9").map (fun r => r.1.shipping_amount) =
      Except.ok 10 ∧
    (10 : ℚ) ≠ 0 := by
  refine ⟨by norm_num [c9Env, c9Prod], rfl, ?_, by norm_num⟩
  norm_num [create_order, c9Env, c9Od, c9Prod, exUser, validate_items, validate_item,
    Product.is_in_stock, calculate_shipping_cost, snapshotIsDigitalLookup,
    optIntTruthy, Except.map, Option.map, Option.getD,
    show pyLower "Kenya" = "kenya" from by decide]

/-- C10: when a provider callback reports a payment `completed`, the order
flips from pending to processing exactly when the completed payments of the
updated order cover its total and the order was pending; in every other case
(payment not completed, order not fully paid, or order not pending) the
order's status is unchanged. -/
theorem claim_C10_payment_flip (o : PayOrder) (pid : ℤ) (ext st : String)
    (fr : Option String) (now : ℤ) (p : PaymentRec)
    (hfind : o.payments.find? (fun q => decide (q.id = pid)) = some p) :
    (st = "completed" →
      ((PayOrder.setPayment o pid
          (PaymentRec.mark_completed { p with external_payment_id := some ext } now)).is_paid = true ∧
          o.status = .pending →
        process_payment o pid ext st fr now =
          Except.ok { PayOrder.setPayment o pid
            (PaymentRec.mark_completed { p with external_payment_id := some ext } now) with
            status := .processing }) ∧
      (¬((PayOrder.setPayment o pid
          (PaymentRec.mark_completed { p with external_payment_id := some ext } now)).is_paid = true ∧
          o.status = .pending) →
        process_payment o pid ext st fr now =
          Except.ok (PayOrder.setPayment o pid
            (PaymentRec.mark_completed { p with external_payment_id := some ext } now)))) ∧
    (st ≠ "completed" →
      ∀ o2, process_payment o pid ext st fr now = Except.ok o2 →
        o2.status = o.status) := by
  constructor
  · intro hst
    subst hst
    constructor
    · rintro ⟨hp, hpend⟩
      simp only [process_payment, hfind, if_true]
      split
      · rfl
      · rename_i hcontra
        exfalso
        apply hcontra
        simp only [Bool.and_eq_true, decide_eq_true_eq]
        exact ⟨hp, hpend⟩
    · intro hn
      simp only [process_payment, hfind, if_true]
      split
      · rename_i hcond
        exfalso
        apply hn
        simp only [Bool.and_eq_true, decide_eq_true_eq] at hcond
        exact ⟨hcond.1, hcond.2⟩
      · rfl
  · intro hst o2 h2
    simp only [process_payment, hfind] at h2
    rw [if_neg hst] at h2
    split at h2 <;>
      (injection h2 with h3; subst h3; rfl)

/-- Witness for C10: a completed callback on a pending order with one
payment covering the total flips the order to processing. -/
theorem claim_C10_payment_flip_witness :
    process_payment c10Order 1 "x" "completed" none 5 =
      Except.ok { PayOrder.setPayment c10Order 1
        (PaymentRec.mark_completed { c10Payment with external_payment_id := some "x" } 5) with
        status := .processing } := by
  have hfind : c10Order.payments.find? (fun q => decide (q.id = 1)) = some c10Payment := by
    norm_num [c10Order, c10Payment, List.find?]
  have hpaid : (PayOrder.setPayment c10Order 1
      (PaymentRec.mark_completed { c10Payment with external_payment_id := some "x" } 5)).is_paid = true := by
    norm_num [PayOrder.setPayment, PayOrder.is_paid, PaymentRec.mark_completed,
      c10Order, c10Payment, List.filter]
  exact ((claim_C10_payment_flip c10Order 1 "x" "completed" none 5 c10Payment
    hfind).1 rfl).1 ⟨hpaid, rfl⟩

/-- Helper: `List.getD` through `List.get?`. -/
theorem listGetD_eq_get? (l : List α) (n : ℕ) (d : α) :
    l.getD n d = (l.get? n).getD d := rfl

/-- Helper: a hit of `findWithIdx` is the element at the returned index and
satisfies the predicate. -/
theorem findWithIdx_get? (p : α → Bool) :
    ∀ (l : List α) (i : ℕ) (a : α), findWithIdx p l = some (i, a) →
      l.get? i = some a ∧ p a = true := by
  intro l
  induction l with
  | nil => intro i a h; simp [findWithIdx] at h
  | cons b l ih =>
    intro i a h
    simp only [findWithIdx] at h
    split at h
    · rename_i hpb
      injection h with h1
      injection h1 with h2 h3
      subst h2; subst h3
      exact ⟨rfl, hpb⟩
    · rename_i hpb
      cases hfl : findWithIdx p l with
      | none => rw [hfl] at h; exact Option.noConfusion h
      | some ia =>
        obtain ⟨i', a'⟩ := ia
        rw [hfl] at h
        simp only [Option.map_some'] at h
        injection h with h1
        injection h1 with h2 h3
        obtain ⟨hget, hp⟩ := ih i' a' hfl
        subst h2
        subst h3
        exact ⟨hget, hp⟩

/-- Helper: one `process_referral_purchase` call either leaves the referral at
index `i` unchanged, or that referral was pending and unexpired and is now
completed. -/
theorem process_referral_cases (env : RefEnv) (oid : ℤ) (i : ℕ)
    (d : MerchantReferral) :
    (process_referral_purchase env oid).1.referrals.getD i d =
      env.referrals.getD i d ∨
    ((env.referrals.getD i d).status = "pending" ∧
     ¬ env.now > (env.referrals.getD i d).expires_at ∧
     ((process_referral_purchase env oid).1.referrals.getD i d).status =
       "completed") := by
  cases horder : env.orders oid with
  | none =>
    left
    unfold process_referral_purchase
    rw [horder]
  | some o =>
    cases hfind : findWithIdx
        (fun r => decide (r.referred_user_id = some o.user_id) &&
          decide (r.status = "pending")) env.referrals with
    | none =>
      left
      unfold process_referral_purchase
      rw [horder]
      dsimp only
      rw [hfind]
    | some ja =>
      obtain ⟨j, r⟩ := ja
      obtain ⟨hget, hp⟩ := findWithIdx_get? _ _ _ _ hfind
      simp only [Bool.and_eq_true, decide_eq_true_eq] at hp
      unfold process_referral_purchase
      rw [horder]
      dsimp only
      rw [hfind]
      dsimp only
      by_cases hexp : r.is_expired env.now = true
      · left
        rw [if_pos hexp]
      · rw [if_neg hexp]
        by_cases hij : i = j
        · subst hij
          right
          have hlen : i < env.referrals.length := (List.get?_eq_some.mp hget).choose
          have hgd : env.referrals.getD i d = r := by
            rw [listGetD_eq_get?, hget]; rfl
          have hset : (env.referrals.set i
              (r.mark_converted o.id (o.total_amount * r.commission_rate)
                (env.merchants r.merchant_id).points_per_referral env.now)).getD i d =
              r.mark_converted o.id (o.total_amount * r.commission_rate)
                (env.merchants r.merchant_id).points_per_referral env.now := by
            rw [listGetD_eq_get?, List.get?_set_eq_of_lt _ hlen]; rfl
          rw [hgd]
          refine ⟨hp.2, ?_, ?_⟩
          · simpa [MerchantReferral.is_expired] using hexp
          · rw [hset]; rfl
        · left
          rw [listGetD_eq_get?, listGetD_eq_get?,
            List.get?_set_ne _ _ (fun h => hij h.symm)]

/-- C1: a `MerchantReferral` is completed at most once and only from the
pending state before its expiry: a non-pending (in particular an already
completed) referral is never modified by `process_referral_purchase`, an
expired referral is never modified, a referral that ends up completed was
either already completed or was pending and unexpired, and a second call —
with the same or any other order id — leaves a completed referral exactly as
the first call left it. -/
theorem claim_C1_referral_completes_once (env : RefEnv) (order_id : ℤ) (i : ℕ)
    (d : MerchantReferral) :
    ((env.referrals.getD i d).status ≠ "pending" →
      (process_referral_purchase env order_id).1.referrals.getD i d =
        env.referrals.getD i d) ∧
    (env.now > (env.referrals.getD i d).expires_at →
      (process_referral_purchase env order_id).1.referrals.getD i d =
        env.referrals.getD i d) ∧
    (((process_referral_purchase env order_id).1.referrals.getD i d).status =
        "completed" →
      (env.referrals.getD i d).status = "completed" ∨
      ((env.referrals.getD i d).status = "pending" ∧
        ¬ env.now > (env.referrals.getD i d).expires_at)) ∧
    (∀ oid2 : ℤ,
      ((process_referral_purchase env order_id).1.referrals.getD i d).status =
        "completed" →
      (process_referral_purchase
        (process_referral_purchase env order_id).1 oid2).1.referrals.getD i d =
        (process_referral_purchase env order_id).1.referrals.getD i d) := by
  refine ⟨fun hnp => ?_, fun hexp => ?_, fun hcomp => ?_, fun oid2 hcomp => ?_⟩
  · rcases process_referral_cases env order_id i d with h | ⟨hpend, _, _⟩
    · exact h
    · exact absurd hpend hnp
  · rcases process_referral_cases env order_id i d with h | ⟨_, hnexp, _⟩
    · exact h
    · exact absurd hexp hnexp
  · rcases process_referral_cases env order_id i d with h | ⟨hpend, hnexp, _⟩
    · left; rw [← h]; exact hcomp
    · right; exact ⟨hpend, hnexp⟩
  · rcases process_referral_cases (process_referral_purchase env order_id).1 oid2 i d
      with h | ⟨hpend, _, _⟩
    · exact h
    · rw [hcomp] at hpend
      exact absurd hpend (by decide)

/-- Witness for C1: at time 100, processing order 5 leaves both the already
completed referral and the expired pending referral unchanged. -/
theorem claim_C1_referral_completes_once_witness :
    (process_referral_purchase c1Env 5).1.referrals.getD 0 c1RefCompleted =
      c1Env.referrals.getD 0 c1RefCompleted ∧
    (process_referral_purchase c1Env 5).1.referrals.getD 1 c1RefCompleted =
      c1Env.referrals.getD 1 c1RefCompleted := by
  constructor
  · exact (claim_C1_referral_completes_once c1Env 5 0 c1RefCompleted).1 (by decide)
  · exact (claim_C1_referral_completes_once c1Env 5 1 c1RefCompleted).2.1 (by decide)

/-- C7 counterexample: a tracked product with zero inventory but backorder
allowed is still rejected with the insufficient-stock error (the quantity
check ignores `allow_backorder`), contradicting the claim that a
backorder-enabled line is never rejected for insufficient stock. -/
theorem claim_C7_backorder_counterexample :
    c7Prod.track_inventory = true ∧
    c7Prod.allow_backorder = true ∧
    validate_item c7Store ⟨1, none, 1⟩ =
      Except.error (SvcError.insufficientStock 1 0) := by
  refine ⟨rfl, rfl, ?_⟩
  norm_num [validate_item, c7Store, c7Prod, Product.is_in_stock]

/-- C8 counterexample: a coupon with `usage_limit = 0` (and
`usage_count = 0`, so the claimed bound held beforehand) is applied anyway,
because `if self.usage_limit` treats `0` as falsy, and its usage count rises
to 1 > 0. -/
theorem claim_C8_zero_limit_counterexample :
    c8Coupon.usage_limit = some 0 ∧
    c8Coupon.usage_count = 0 ∧
    (create_order c8Env 7 c8Od 42 "ORD-8").map
      (fun r => r.2.coupons.map (fun c => c.usage_count)) = Except.ok [1] ∧
    ¬ ((1 : ℤ) ≤ 0) := by
  refine ⟨rfl, rfl, ?_, by norm_num⟩
  norm_num [create_order, c8Env, c8Od, exStore, exUser, exProd, c8Coupon,
    validate_items, validate_item, Product.is_in_stock, calculate_shipping_cost,
    snapshotIsDigitalLookup, apply_coupon, Coupon.is_valid, Coupon.calculate_discount,
    couponUserUsageCount, optIntTruthy, optRatTruthy, Except.map, Option.map,
    Option.getD,
    show pyUpper "save5" = "SAVE5" from by decide,
    show pyLower "Kenya" = "kenya" from by decide,
    show ("fixed_amount" : String) ≠ "percentage" from by decide]

/-- C7 amended: a line whose product exists is rejected with a stock error
(out-of-stock or insufficient-stock) exactly when the product tracks
inventory and the available quantity — the variant's if one is specified,
else the product's — is below the requested quantity; `allow_backorder` does
not exempt the quantity check (it only selects between the two error kinds
for a product with no inventory of its own). -/
theorem claim_C7_stock_rejection (s : Store) (it : OrderItemCreate) (p : Product)
    (hp : s.prod it.product_id = some p) (hq : 1 ≤ it.quantity) :
    (it.variant_id = none →
      ((validate_item s it = Except.error (SvcError.outOfStock p.id) ∨
        validate_item s it =
          Except.error (SvcError.insufficientStock p.id p.inventory_count)) ↔
       (p.track_inventory = true ∧ p.inventory_count < it.quantity))) ∧
    (∀ vid v, it.variant_id = some vid → s.var vid = some v →
      v.product_id = it.product_id → v.is_active = true →
      Product.is_in_stock p = true → ProductVariant.is_in_stock v = true →
      (validate_item s it =
          Except.error (SvcError.insufficientStock p.id v.inventory_count) ↔
       (p.track_inventory = true ∧ v.inventory_count < it.quantity))) := by
  constructor
  · intro hv
    by_cases htr : p.track_inventory = true
    · by_cases hin : p.inventory_count < it.quantity
      · by_cases hstk : p.is_in_stock = true
        · have hval : validate_item s it =
              Except.error (SvcError.insufficientStock p.id p.inventory_count) := by
            simp [validate_item, hp, hv, htr, hin, hstk]
          simp [hval, htr, hin]
        · have hstk' : p.is_in_stock = false := by
            revert hstk; cases p.is_in_stock <;> simp
          have hval : validate_item s it =
              Except.error (SvcError.outOfStock p.id) := by
            simp [validate_item, hp, hstk']
          simp [hval, htr, hin]
      · have hstk : p.is_in_stock = true := by
          simp only [Product.is_in_stock, htr, Bool.not_true, Bool.false_eq_true,
            if_false, Bool.or_eq_true, decide_eq_true_eq]
          left
          omega
        have hval : ∃ rec, validate_item s it = Except.ok rec := by
          simp [validate_item, hp, hv, hstk, htr, hin]
        obtain ⟨rec, hrec⟩ := hval
        simp [hrec, htr, hin]
    · have htr' : p.track_inventory = false := by
        revert htr; cases p.track_inventory <;> simp
      have hstk : p.is_in_stock = true := by
        simp [Product.is_in_stock, htr']
      have hval : ∃ rec, validate_item s it = Except.ok rec := by
        simp [validate_item, hp, hv, hstk, htr']
      obtain ⟨rec, hrec⟩ := hval
      simp [hrec, htr']
  · intro vid v hv hvget hvp hva hstk hvs
    by_cases htr : p.track_inventory = true
    · by_cases hin : v.inventory_count < it.quantity
      · have hval : validate_item s it =
            Except.error (SvcError.insufficientStock p.id v.inventory_count) := by
          simp [validate_item, hp, hv, hvget, hvp, hva, hstk, hvs, htr, hin]
        simp [hval, htr, hin]
      · have hval : ∃ rec, validate_item s it = Except.ok rec := by
          simp [validate_item, hp, hv, hvget, hvp, hva, hstk, hvs, htr, hin]
        obtain ⟨rec, hrec⟩ := hval
        simp [hrec, htr, hin]
    · have htr' : p.track_inventory = false := by
        revert htr; cases p.track_inventory <;> simp
      have hval : ∃ rec, validate_item s it = Except.ok rec := by
        simp [validate_item, hp, hv, hvget, hvp, hva, hstk, hvs, htr']
      obtain ⟨rec, hrec⟩ := hval
      simp [hrec, htr']

/-- Witness for C7 at the backorder fixture: the characterization instantiates
to a rejected line (tracked, zero inventory, quantity one). -/
theorem claim_C7_stock_rejection_witness :
    (validate_item c7Store ⟨1, none, 1⟩ =
        Except.error (SvcError.outOfStock c7Prod.id) ∨
      validate_item c7Store ⟨1, none, 1⟩ =
        Except.error (SvcError.insufficientStock c7Prod.id c7Prod.inventory_count)) ↔
    (c7Prod.track_inventory = true ∧ c7Prod.inventory_count < 1) :=
  (claim_C7_stock_rejection c7Store ⟨1, none, 1⟩ c7Prod
    (by norm_num [c7Store]) (by norm_num)).1 rfl

/-- Helper: a coupon that passes `is_valid` with a nonzero usage limit is
strictly below that limit. -/
theorem coupon_usage_bound_of_is_valid (c : Coupon) (now l : ℤ)
    (hv : c.is_valid now = true) (hl : c.usage_limit = some l) (hl0 : l ≠ 0) :
    c.usage_count < l := by
  simp only [Coupon.is_valid, hl, Option.getD_some] at hv
  split at hv
  · exact Bool.noConfusion hv
  split at hv
  · exact Bool.noConfusion hv
  split at hv
  · exact Bool.noConfusion hv
  split at hv
  · exact Bool.noConfusion hv
  rename_i h4
  simp only [optIntTruthy, bne_iff_ne, ne_eq, Bool.and_eq_true, decide_eq_true_eq] at h4
  exact lt_of_not_ge (fun hge => h4 ⟨hl0, hge⟩)

/-- Helper: a successful `_apply_coupon` returns the coupon it was given,
which passed `is_valid`, and the user's prior usage is below any nonzero
per-user limit. -/
theorem apply_coupon_ok (c : Coupon) (now : ℤ) (amt : ℚ) (ucnt : ℤ)
    (c' : Coupon) (d : ℚ)
    (h : apply_coupon c now amt ucnt = Except.ok (c', d)) :
    c' = c ∧ c.is_valid now = true ∧
    (∀ pl, c.usage_limit_per_user = some pl → pl ≠ 0 → ucnt < pl) := by
  simp only [apply_coupon] at h
  split at h
  · exact Except.noConfusion h
  rename_i hvalid
  split at h
  · exact Except.noConfusion h
  rename_i huser
  split at h
  · exact Except.noConfusion h
  injection h with h1
  injection h1 with h2 h3
  refine ⟨h2.symm, ?_, ?_⟩
  · revert hvalid; cases c.is_valid now <;> simp
  · intro pl hpl hpl0
    rw [hpl] at huser
    simp only [optIntTruthy, bne_iff_ne, ne_eq, Bool.and_eq_true,
      decide_eq_true_eq, Option.getD_some] at huser
    exact lt_of_not_ge (fun hge => huser ⟨hpl0, hge⟩)

/-- Helper: appending one usage row adds one to the count of its own
(coupon, user) pair and nothing to any other. -/
theorem couponUserUsageCount_append (usages : List CouponUsage)
    (x : CouponUsage) (cid u : ℤ) :
    couponUserUsageCount (usages ++ [x]) cid u =
      couponUserUsageCount usages cid u +
        (if x.coupon_id = cid ∧ x.user_id = u then 1 else 0) := by
  simp only [couponUserUsageCount, List.filter_append]
  by_cases hx : x.coupon_id = cid ∧ x.user_id = u
  · have hfil : (List.filter
        (fun y => decide (y.coupon_id = cid) && decide (y.user_id = u)) [x]) = [x] := by
      simp [List.filter, hx.1, hx.2]
    rw [hfil, if_pos hx]
    push_cast [List.length_append]
    simp
  · have hfil : (List.filter
        (fun y => decide (y.coupon_id = cid) && decide (y.user_id = u)) [x]) = [] := by
      simp only [List.filter]
      split
      · rename_i hc
        simp only [Bool.and_eq_true, decide_eq_true_eq] at hc
        exact absurd hc hx
      · rfl
    rw [hfil, if_neg hx]
    simp

/-- C8 amended: provided limits are positive when set (the code treats a
limit of 0 as "no limit" — Python truthiness — which the counterexample
exploits), `create_order` preserves both coupon bounds: the global
`usage_count` never exceeds `usage_limit`, and no user's usage-ledger count
exceeds `usage_limit_per_user`. Coupon ids are assumed unique (primary key). -/
theorem claim_C8_coupon_limits (env : Env) (uid : ℤ) (od : OrderCreateData)
    (oid : ℤ) (onum : String) (o : OrderRec) (env' : Env)
    (h : create_order env uid od oid onum = Except.ok (o, env'))
    (hids : (env.coupons.map (fun c => c.id)).Nodup)
    (hpre : ∀ c ∈ env.coupons, ∀ l, c.usage_limit = some l → 0 < l →
      c.usage_count ≤ l)
    (hpreU : ∀ c ∈ env.coupons, ∀ u pl, c.usage_limit_per_user = some pl →
      0 < pl → couponUserUsageCount env.coupon_usage c.id u ≤ pl) :
    (∀ c' ∈ env'.coupons, ∀ l, c'.usage_limit = some l → 0 < l →
      c'.usage_count ≤ l) ∧
    (∀ c' ∈ env'.coupons, ∀ u pl, c'.usage_limit_per_user = some pl → 0 < pl →
      couponUserUsageCount env'.coupon_usage c'.id u ≤ pl) := by
  simp only [create_order] at h
  split at h
  · exact Except.noConfusion h
  split at h
  · exact Except.noConfusion h
  rename_i recs hrecs
  split at h
  · exact Except.noConfusion h
  rename_i couponApplied hcoup
  split at h
  · exact Except.noConfusion h
  injection h with h2
  injection h2 with h3 h4
  subst h4
  split at hcoup
  · -- no coupon code submitted: coupons and usage ledger unchanged
    injection hcoup with hc
    subst hc
    exact ⟨hpre, hpreU⟩
  · -- coupon code submitted: find? and apply_coupon succeeded
    rename_i code hcode
    split at hcoup
    · exact Except.noConfusion hcoup
    rename_i c0 hfind
    cases happly : apply_coupon c0 env.now
        ((List.map (fun x => x.total_price) recs).sum)
        (couponUserUsageCount env.coupon_usage c0.id uid) with
    | error e =>
      rw [happly] at hcoup
      exact Except.noConfusion hcoup
    | ok cd =>
      rw [happly] at hcoup
      simp only [Except.map] at hcoup
      injection hcoup with hc
      subst hc
      obtain ⟨cd1, cd2⟩ := cd
      obtain ⟨hcc, hvalid, huser⟩ := apply_coupon_ok _ _ _ _ _ _ happly
      subst hcc
      dsimp only
      have hmem : cd1 ∈ env.coupons := List.mem_of_find?_eq_some hfind
      constructor
      · intro c' hc' l hl hl0
        simp only [List.mem_map] at hc'
        obtain ⟨x, hx, hxc'⟩ := hc'
        by_cases hid : x.id = cd1.id
        · have hxc0 : x = cd1 :=
            List.inj_on_of_nodup_map hids hx hmem hid
          subst hxc0
          rw [if_pos rfl] at hxc'
          subst hxc'
          have hlt := coupon_usage_bound_of_is_valid x env.now l hvalid hl
            (by omega)
          show x.usage_count + 1 ≤ l
          omega
        · rw [if_neg hid] at hxc'
          subst hxc'
          exact hpre x hx l hl hl0
      · intro c' hc' u pl hpl hpl0
        simp only [List.mem_map] at hc'
        obtain ⟨x, hx, hxc'⟩ := hc'
        rw [couponUserUsageCount_append]
        by_cases hid : x.id = cd1.id
        · have hxc0 : x = cd1 :=
            List.inj_on_of_nodup_map hids hx hmem hid
          subst hxc0
          rw [if_pos rfl] at hxc'
          subst hxc'
          by_cases hu : u = uid
          · subst hu
            rw [if_pos ⟨rfl, rfl⟩]
            have hlt := huser pl hpl (by omega)
            have hbase := hpreU x hx u pl hpl hpl0
            show couponUserUsageCount env.coupon_usage x.id u + 1 ≤ pl
            omega
          · rw [if_neg (fun hcon => hu hcon.2.symm)]
            simpa using hpreU x hx u pl hpl hpl0
        · rw [if_neg hid] at hxc'
          subst hxc'
          rw [if_neg (fun hcon => hid hcon.1.symm)]
          simpa using hpreU x hx u pl hpl hpl0

/-- Witness for C8: redeeming the limit-5 coupon (already used once, and once
by another user) keeps every bound intact. -/
theorem claim_C8_coupon_limits_witness :
    ∃ o env', create_order c8PosEnv 7 c8Od 42 "ORD-8" = Except.ok (o, env') ∧
      ((∀ c' ∈ env'.coupons, ∀ l, c'.usage_limit = some l → 0 < l →
        c'.usage_count ≤ l) ∧
       (∀ c' ∈ env'.coupons, ∀ u pl, c'.usage_limit_per_user = some pl →
        0 < pl → couponUserUsageCount env'.coupon_usage c'.id u ≤ pl)) := by
  have hok : (create_order c8PosEnv 7 c8Od 42 "ORD-8").isOk = true := by
    norm_num [create_order, c8PosEnv, c8Od, exStore, exUser, exProd, c8PosCoupon,
      validate_items, validate_item, Product.is_in_stock, calculate_shipping_cost,
      snapshotIsDigitalLookup, apply_coupon, Coupon.is_valid, Coupon.calculate_discount,
      couponUserUsageCount, optIntTruthy, optRatTruthy, Except.map, Option.map,
      Option.getD, Except.isOk, Except.toBool, List.filter,
      show pyUpper "save5" = "SAVE5" from by decide,
      show pyLower "Kenya" = "kenya" from by decide,
      show ("fixed_amount" : String) ≠ "percentage" from by decide]
  rcases hc : create_order c8PosEnv 7 c8Od 42 "ORD-8" with e | ⟨o, env'⟩
  · rw [hc] at hok
    exact Bool.noConfusion hok
  · refine ⟨o, env', rfl, claim_C8_coupon_limits _ _ _ _ _ _ _ hc (by simp [c8PosEnv])
      ?_ ?_⟩
    · intro c hcm l hl hl0
      rcases List.mem_singleton.mp hcm with rfl
      have hl' : (5 : ℤ) = l := by injection hl
      show (1 : ℤ) ≤ l
      omega
    · intro c hcm u pl hpl hpl0
      rcases List.mem_singleton.mp hcm with rfl
      have hpl' : (2 : ℤ) = pl := by injection hpl
      have hcnt : couponUserUsageCount c8PosEnv.coupon_usage c8PosCoupon.id u ≤ 1 := by
        by_cases hu : u = 9
        · subst hu; decide
        · have hdec : (decide ((9 : ℤ) = u)) = false :=
            decide_eq_false (fun h => hu h.symm)
          have hz : couponUserUsageCount c8PosEnv.coupon_usage c8PosCoupon.id u = 0 := by
            simp [couponUserUsageCount, c8PosEnv, c8PosCoupon, List.filter, hdec]
          omega
      omega

/-- Helper: closed form of the product table after one decrement step. -/
theorem dec_prod_eq (s : Store) (it : OrderItemCreate) (j : ℤ) :
    (order_decrement_item s it).prod j =
      (if j = it.product_id then
        (s.prod j).map (fun p =>
          if p.track_inventory then
            (if it.variant_id = none then p.decrease_inventory it.quantity
             else p).increment_purchase_count it.quantity
          else p)
      else s.prod j) := by
  unfold order_decrement_item
  cases hp : s.prod it.product_id with
  | none =>
    by_cases hj : j = it.product_id
    · subst hj; simp [hp]
    · simp [hj]
  | some p =>
    by_cases htr : p.track_inventory
    · simp only [htr, if_true]
      cases hv : it.variant_id with
      | none =>
        simp only [Store.updateProd]
        by_cases hj : j = it.product_id
        · subst hj
          simp [hp, htr, Product.decrease_inventory]
        · simp [hj, hp]
      | some vid =>
        cases hvv : s.var vid with
        | none =>
          simp only [hvv, Store.updateProd]
          by_cases hj : j = it.product_id
          · subst hj; simp [hp, htr]
          · simp [hj, hp]
        | some v =>
          simp only [hvv, Store.updateProd, Store.updateVar]
          by_cases hj : j = it.product_id
          · subst hj; simp [hp, htr]
          · simp [hj, hp]
    · have htr' : p.track_inventory = false := by
        revert htr; cases p.track_inventory <;> simp
      simp only [htr', Bool.false_eq_true, if_false]
      by_cases hj : j = it.product_id
      · subst hj; simp [hp, htr']
      · simp [hj]

/-- Helper: closed form of the variant table after one decrement step. -/
theorem dec_var_eq (s : Store) (it : OrderItemCreate) (j : ℤ) :
    (order_decrement_item s it).var j =
      (match it.variant_id, s.prod it.product_id with
      | some vid, some p =>
        if j = vid ∧ p.track_inventory = true then
          (s.var j).map
            (fun v => { v with inventory_count := max 0 (v.inventory_count - it.quantity) })
        else s.var j
      | _, _ => s.var j) := by
  unfold order_decrement_item
  cases hp : s.prod it.product_id with
  | none => cases hv : it.variant_id <;> rfl
  | some p =>
    by_cases htr : p.track_inventory
    · simp only [htr, if_true]
      cases hv : it.variant_id with
      | none => simp [Store.updateProd, htr]
      | some vid =>
        cases hvv : s.var vid with
        | none =>
          simp only [hvv, Store.updateProd]
          by_cases hj : j = vid
          · subst hj; simp [hvv, hp, htr]
          · simp [hj, hp, htr]
        | some v =>
          simp only [hvv, Store.updateProd, Store.updateVar]
          by_cases hj : j = vid
          · subst hj; simp [hvv, hp, htr]
          · simp [hj, hp, htr]
    · have htr' : p.track_inventory = false := by
        revert htr; cases p.track_inventory <;> simp
      simp only [htr', Bool.false_eq_true, if_false]
      cases hv : it.variant_id with
      | none => rfl
      | some vid => simp [htr']

/-- Helper: closed form of the product table after one restore step. -/
theorem res_prod_eq (s : Store) (r : OrderItemRec) (j : ℤ) :
    (cancel_restore_item s r).prod j =
      (if j = r.product_id ∧ r.variant_id = none then
        (s.prod j).map (fun p => p.increase_inventory r.quantity)
      else s.prod j) := by
  unfold cancel_restore_item
  cases hp : s.prod r.product_id with
  | none =>
    by_cases hj : j = r.product_id ∧ r.variant_id = none
    · obtain ⟨hj1, _⟩ := hj; subst hj1; simp [hp]
    · simp [hj]
  | some p =>
    by_cases htr : p.track_inventory
    · simp only [htr, if_true]
      cases hv : r.variant_id with
      | none =>
        simp only [Store.updateProd]
        by_cases hj : j = r.product_id
        · subst hj; simp [hp, hv]
        · simp [hj, hv]
      | some vid =>
        cases hvv : s.var vid with
        | none => simp [hvv, hv]
        | some v =>
          simp only [hvv, Store.updateVar]
          simp [hv]
    · have htr' : p.track_inventory = false := by
        revert htr; cases p.track_inventory <;> simp
      simp only [htr', Bool.false_eq_true, if_false]
      by_cases hj : j = r.product_id ∧ r.variant_id = none
      · obtain ⟨hj1, _⟩ := hj; subst hj1
        simp [hp, Product.increase_inventory, htr']
      · simp [hj]

/-- Helper: closed form of the variant table after one restore step. -/
theorem res_var_eq (s : Store) (r : OrderItemRec) (j : ℤ) :
    (cancel_restore_item s r).var j =
      (match r.variant_id, s.prod r.product_id with
      | some vid, some p =>
        if j = vid ∧ p.track_inventory = true then
          (s.var j).map
            (fun v => { v with inventory_count := v.inventory_count + r.quantity })
        else s.var j
      | _, _ => s.var j) := by
  unfold cancel_restore_item
  cases hp : s.prod r.product_id with
  | none => cases hv : r.variant_id <;> rfl
  | some p =>
    by_cases htr : p.track_inventory
    · simp only [htr, if_true]
      cases hv : r.variant_id with
      | none => simp [Store.updateProd, htr]
      | some vid =>
        cases hvv : s.var vid with
        | none =>
          simp only [hvv]
          by_cases hj : j = vid
          · subst hj; simp [hvv, hp, htr]
          · simp [hj, hp, htr]
        | some v =>
          simp only [hvv, Store.updateVar]
          by_cases hj : j = vid
          · subst hj; simp [hvv, hp, htr]
          · simp [hj, hp, htr]
    · have htr' : p.track_inventory = false := by
        revert htr; cases p.track_inventory <;> simp
      simp only [htr', Bool.false_eq_true, if_false]
      cases hv : r.variant_id with
      | none => rfl
      | some vid => simp [htr']

/-- Helper: effect of one decrement step on a product's (track, inventory). -/
theorem prodView_dec (s : Store) (it : OrderItemCreate) (pid : ℤ) :
    prodView (order_decrement_item s it) pid =
      (if pid = it.product_id ∧ it.variant_id = none then
        (prodView s pid).map
          (fun tv => (tv.1, if tv.1 then max 0 (tv.2 - it.quantity) else tv.2))
      else prodView s pid) := by
  simp only [prodView, dec_prod_eq]
  by_cases h1 : pid = it.product_id
  · subst h1
    cases hv : it.variant_id with
    | none =>
      cases hp : s.prod it.product_id with
      | none => simp
      | some p =>
        by_cases htr : p.track_inventory
        · simp [htr, Product.decrease_inventory, Product.increment_purchase_count]
        · have htr' : p.track_inventory = false := by
            revert htr; cases p.track_inventory <;> simp
          simp [htr']
    | some vid =>
      cases hp : s.prod it.product_id with
      | none => simp
      | some p =>
        by_cases htr : p.track_inventory
        · simp [htr, Product.increment_purchase_count]
        · have htr' : p.track_inventory = false := by
            revert htr; cases p.track_inventory <;> simp
          simp [htr']
  · simp [h1]

/-- Helper: effect of one decrement step on a variant's (product, inventory). -/
theorem varView_dec (s : Store) (it : OrderItemCreate) (vid : ℤ) :
    varView (order_decrement_item s it) vid =
      (if it.variant_id = some vid ∧ prodTrack s it.product_id = some true then
        (varView s vid).map (fun pv => (pv.1, max 0 (pv.2 - it.quantity)))
      else varView s vid) := by
  simp only [varView, prodTrack, dec_var_eq]
  cases hv : it.variant_id with
  | none => simp
  | some vid' =>
    cases hp : s.prod it.product_id with
    | none => simp
    | some p =>
      by_cases htr : p.track_inventory
      · by_cases hj : vid = vid'
        · subst hj
          simp [htr]
          cases s.var vid <;> simp
        · have hne : ¬(vid' = vid) := fun h => hj h.symm
          simp [htr, hj, hne]
      · have htr' : p.track_inventory = false := by
          revert htr; cases p.track_inventory <;> simp
        simp [htr']

/-- Helper: a decrement step never changes any product's track flag. -/
theorem prodTrack_dec (s : Store) (it : OrderItemCreate) (pid : ℤ) :
    prodTrack (order_decrement_item s it) pid = prodTrack s pid := by
  simp only [prodTrack, dec_prod_eq]
  by_cases hj : pid = it.product_id
  · subst hj
    cases hp : s.prod it.product_id with
    | none => simp
    | some p =>
      by_cases htr : p.track_inventory
      · cases hv : it.variant_id <;>
          simp [htr, Product.decrease_inventory, Product.increment_purchase_count]
      · have htr' : p.track_inventory = false := by
          revert htr; cases p.track_inventory <;> simp
        simp [htr']
  · simp [hj]

/-- Helper: effect of one restore step on a product's (track, inventory). -/
theorem prodView_res (s : Store) (r : OrderItemRec) (pid : ℤ) :
    prodView (cancel_restore_item s r) pid =
      (if pid = r.product_id ∧ r.variant_id = none then
        (prodView s pid).map
          (fun tv => (tv.1, if tv.1 then tv.2 + r.quantity else tv.2))
      else prodView s pid) := by
  simp only [prodView, res_prod_eq]
  by_cases h1 : pid = r.product_id ∧ r.variant_id = none
  · obtain ⟨h1a, h1b⟩ := h1
    subst h1a
    simp only [h1b, and_self, if_true]
    cases hp : s.prod r.product_id with
    | none => simp
    | some p =>
      by_cases htr : p.track_inventory
      · simp [htr, Product.increase_inventory]
      · have htr' : p.track_inventory = false := by
          revert htr; cases p.track_inventory <;> simp
        simp [htr', Product.increase_inventory]
  · simp [h1]

/-- Helper: effect of one restore step on a variant's (product, inventory). -/
theorem varView_res (s : Store) (r : OrderItemRec) (vid : ℤ) :
    varView (cancel_restore_item s r) vid =
      (if r.variant_id = some vid ∧ prodTrack s r.product_id = some true then
        (varView s vid).map (fun pv => (pv.1, pv.2 + r.quantity))
      else varView s vid) := by
  simp only [varView, prodTrack, res_var_eq]
  cases hv : r.variant_id with
  | none => simp
  | some vid' =>
    cases hp : s.prod r.product_id with
    | none => simp
    | some p =>
      by_cases htr : p.track_inventory
      · by_cases hj : vid = vid'
        · subst hj
          simp [htr]
          cases s.var vid <;> simp
        · have hne : ¬(vid' = vid) := fun h => hj h.symm
          simp [htr, hj, hne]
      · have htr' : p.track_inventory = false := by
          revert htr; cases p.track_inventory <;> simp
        simp [htr']

/-- Helper: a restore step never changes any product's track flag. -/
theorem prodTrack_res (s : Store) (r : OrderItemRec) (pid : ℤ) :
    prodTrack (cancel_restore_item s r) pid = prodTrack s pid := by
  simp only [prodTrack, res_prod_eq]
  by_cases hj : pid = r.product_id ∧ r.variant_id = none
  · obtain ⟨h1a, h1b⟩ := hj
    subst h1a
    simp only [h1b, and_self, if_true]
    cases hp : s.prod r.product_id with
    | none => simp
    | some p => simp [Product.increase_inventory]; split <;> simp
  · simp [hj]

/-- Helper: the decrement loop leaves products untouched by any line alone. -/
theorem prodView_decFold_untouched :
    ∀ (li : List OrderItemCreate) (s : Store) (pid : ℤ),
      (∀ it ∈ li, ¬(pid = it.product_id ∧ it.variant_id = none)) →
      prodView (li.foldl order_decrement_item s) pid = prodView s pid := by
  intro li
  induction li with
  | nil => intro s pid _; rfl
  | cons it rest ih =>
    intro s pid h
    simp only [List.foldl_cons]
    rw [ih _ _ (fun x hx => h x (List.mem_cons_of_mem _ hx)), prodView_dec,
      if_neg (h it (List.mem_cons_self _ _))]

/-- Helper: the decrement loop leaves variants untouched by any line alone. -/
theorem varView_decFold_untouched :
    ∀ (li : List OrderItemCreate) (s : Store) (vid : ℤ),
      (∀ it ∈ li, it.variant_id ≠ some vid) →
      varView (li.foldl order_decrement_item s) vid = varView s vid := by
  intro li
  induction li with
  | nil => intro s vid _; rfl
  | cons it rest ih =>
    intro s vid h
    simp only [List.foldl_cons]
    rw [ih _ _ (fun x hx => h x (List.mem_cons_of_mem _ hx)), varView_dec,
      if_neg (fun hc => (h it (List.mem_cons_self _ _)) hc.1)]

/-- Helper: the decrement loop never changes a track flag. -/
theorem prodTrack_decFold :
    ∀ (li : List OrderItemCreate) (s : Store) (pid : ℤ),
      prodTrack (li.foldl order_decrement_item s) pid = prodTrack s pid := by
  intro li
  induction li with
  | nil => intro s _; rfl
  | cons it rest ih =>
    intro s pid
    simp only [List.foldl_cons]
    rw [ih, prodTrack_dec]

/-- Helper: the restore loop leaves products untouched by any line alone. -/
theorem prodView_resFold_untouched :
    ∀ (lr : List OrderItemRec) (s : Store) (pid : ℤ),
      (∀ r ∈ lr, ¬(pid = r.product_id ∧ r.variant_id = none)) →
      prodView (lr.foldl cancel_restore_item s) pid = prodView s pid := by
  intro lr
  induction lr with
  | nil => intro s pid _; rfl
  | cons r rest ih =>
    intro s pid h
    simp only [List.foldl_cons]
    rw [ih _ _ (fun x hx => h x (List.mem_cons_of_mem _ hx)), prodView_res,
      if_neg (h r (List.mem_cons_self _ _))]

/-- Helper: the restore loop leaves variants untouched by any line alone. -/
theorem varView_resFold_untouched :
    ∀ (lr : List OrderItemRec) (s : Store) (vid : ℤ),
      (∀ r ∈ lr, r.variant_id ≠ some vid) →
      varView (lr.foldl cancel_restore_item s) vid = varView s vid := by
  intro lr
  induction lr with
  | nil => intro s vid _; rfl
  | cons r rest ih =>
    intro s vid h
    simp only [List.foldl_cons]
    rw [ih _ _ (fun x hx => h x (List.mem_cons_of_mem _ hx)), varView_res,
      if_neg (fun hc => (h r (List.mem_cons_self _ _)) hc.1)]

/-- Helper: the restore loop never changes a track flag. -/
theorem prodTrack_resFold :
    ∀ (lr : List OrderItemRec) (s : Store) (pid : ℤ),
      prodTrack (lr.foldl cancel_restore_item s) pid = prodTrack s pid := by
  intro lr
  induction lr with
  | nil => intro s _; rfl
  | cons r rest ih =>
    intro s pid
    simp only [List.foldl_cons]
    rw [ih, prodTrack_res]

/-- Helper: with pairwise distinct line keys, the decrement loop changes the
product counter addressed by a no-variant line exactly once. -/
theorem prodView_decFold_touch :
    ∀ (li : List OrderItemCreate) (s : Store) (it0 : OrderItemCreate),
      it0 ∈ li → it0.variant_id = none → (li.map itemKey).Nodup →
      prodView (li.foldl order_decrement_item s) it0.product_id =
        (prodView s it0.product_id).map
          (fun tv => (tv.1, if tv.1 then max 0 (tv.2 - it0.quantity) else tv.2)) := by
  intro li
  induction li with
  | nil => intro s it0 hmem; exact absurd hmem (List.not_mem_nil _)
  | cons it rest ih =>
    intro s it0 hmem hv hnodup
    simp only [List.map_cons, List.nodup_cons] at hnodup
    obtain ⟨hnotin, hnd⟩ := hnodup
    simp only [List.foldl_cons]
    rcases List.mem_cons.mp hmem with heq | hmem'
    · subst heq
      rw [prodView_decFold_untouched rest _ _ ?_, prodView_dec, if_pos ⟨rfl, hv⟩]
      intro x hx hcon
      apply hnotin
      have hkey : itemKey it0 = itemKey x := by
        simp [itemKey, hv, hcon.1, hcon.2]
      rw [hkey]
      exact List.mem_map_of_mem _ hx
    · have hne : ¬(it0.product_id = it.product_id ∧ it.variant_id = none) := by
        intro hcon
        apply hnotin
        have hkey : itemKey it = itemKey it0 := by
          simp [itemKey, hcon.1, hcon.2, hv]
        rw [hkey]
        exact List.mem_map_of_mem _ hmem'
      rw [ih (order_decrement_item s it) it0 hmem' hv hnd, prodView_dec, if_neg hne]

/-- Helper: with pairwise distinct line keys, the decrement loop changes the
variant counter addressed by a variant line exactly once (when the parent
product tracks inventory). -/
theorem varView_decFold_touch :
    ∀ (li : List OrderItemCreate) (s : Store) (it0 : OrderItemCreate) (vid : ℤ),
      it0 ∈ li → it0.variant_id = some vid → (li.map itemKey).Nodup →
      (∀ it ∈ li, it.variant_id = some vid → it.product_id = it0.product_id) →
      varView (li.foldl order_decrement_item s) vid =
        (if prodTrack s it0.product_id = some true then
          (varView s vid).map (fun pv => (pv.1, max 0 (pv.2 - it0.quantity)))
        else varView s vid) := by
  intro li
  induction li with
  | nil => intro s it0 vid hmem; exact absurd hmem (List.not_mem_nil _)
  | cons it rest ih =>
    intro s it0 vid hmem hv hnodup hsame
    simp only [List.map_cons, List.nodup_cons] at hnodup
    obtain ⟨hnotin, hnd⟩ := hnodup
    simp only [List.foldl_cons]
    rcases List.mem_cons.mp hmem with heq | hmem'
    · subst heq
      have huntouched : ∀ x ∈ rest, x.variant_id ≠ some vid := by
        intro x hx hcon
        apply hnotin
        have hpid : x.product_id = it0.product_id :=
          hsame x (List.mem_cons_of_mem _ hx) hcon
        have hkey : itemKey it0 = itemKey x := by
          simp [itemKey, hv, hcon, hpid]
        rw [hkey]
        exact List.mem_map_of_mem _ hx
      rw [varView_decFold_untouched rest _ _ huntouched, varView_dec]
      by_cases htrk : prodTrack s it0.product_id = some true
      · rw [if_pos (show it0.variant_id = some vid ∧
            prodTrack s it0.product_id = some true from ⟨hv, htrk⟩), if_pos htrk]
      · rw [if_neg (show ¬(it0.variant_id = some vid ∧
            prodTrack s it0.product_id = some true) from fun hc => htrk hc.2),
          if_neg htrk]
    · have hne : it.variant_id ≠ some vid := by
        intro hcon
        apply hnotin
        have hpid : it.product_id = it0.product_id :=
          hsame it (List.mem_cons_self _ _) hcon
        have hkey : itemKey it = itemKey it0 := by
          simp [itemKey, hcon, hpid, hv]
        rw [hkey]
        exact List.mem_map_of_mem _ hmem'
      rw [ih (order_decrement_item s it) it0 vid hmem' hv hnd
          (fun x hx hcon => hsame x (List.mem_cons_of_mem _ hx) hcon),
        prodTrack_dec, varView_dec,
        if_neg (show ¬(it.variant_id = some vid ∧
          prodTrack s it.product_id = some true) from fun hc => hne hc.1)]

/-- Helper: with pairwise distinct line keys, the restore loop changes the
product counter addressed by a no-variant line exactly once. -/
theorem prodView_resFold_touch :
    ∀ (lr : List OrderItemRec) (s : Store) (r0 : OrderItemRec),
      r0 ∈ lr → r0.variant_id = none → (lr.map recKey).Nodup →
      prodView (lr.foldl cancel_restore_item s) r0.product_id =
        (prodView s r0.product_id).map
          (fun tv => (tv.1, if tv.1 then tv.2 + r0.quantity else tv.2)) := by
  intro lr
  induction lr with
  | nil => intro s r0 hmem; exact absurd hmem (List.not_mem_nil _)
  | cons r rest ih =>
    intro s r0 hmem hv hnodup
    simp only [List.map_cons, List.nodup_cons] at hnodup
    obtain ⟨hnotin, hnd⟩ := hnodup
    simp only [List.foldl_cons]
    rcases List.mem_cons.mp hmem with heq | hmem'
    · subst heq
      rw [prodView_resFold_untouched rest _ _ ?_, prodView_res, if_pos ⟨rfl, hv⟩]
      intro x hx hcon
      apply hnotin
      have hkey : recKey r0 = recKey x := by
        simp [recKey, hv, hcon.1, hcon.2]
      rw [hkey]
      exact List.mem_map_of_mem _ hx
    · have hne : ¬(r0.product_id = r.product_id ∧ r.variant_id = none) := by
        intro hcon
        apply hnotin
        have hkey : recKey r = recKey r0 := by
          simp [recKey, hcon.1, hcon.2, hv]
        rw [hkey]
        exact List.mem_map_of_mem _ hmem'
      rw [ih (cancel_restore_item s r) r0 hmem' hv hnd, prodView_res, if_neg hne]

/-- Helper: with pairwise distinct line keys, the restore loop changes the
variant counter addressed by a variant line exactly once (when the parent
product tracks inventory). -/
theorem varView_resFold_touch :
    ∀ (lr : List OrderItemRec) (s : Store) (r0 : OrderItemRec) (vid : ℤ),
      r0 ∈ lr → r0.variant_id = some vid → (lr.map recKey).Nodup →
      (∀ r ∈ lr, r.variant_id = some vid → r.product_id = r0.product_id) →
      varView (lr.foldl cancel_restore_item s) vid =
        (if prodTrack s r0.product_id = some true then
          (varView s vid).map (fun pv => (pv.1, pv.2 + r0.quantity))
        else varView s vid) := by
  intro lr
  induction lr with
  | nil => intro s r0 vid hmem; exact absurd hmem (List.not_mem_nil _)
  | cons r rest ih =>
    intro s r0 vid hmem hv hnodup hsame
    simp only [List.map_cons, List.nodup_cons] at hnodup
    obtain ⟨hnotin, hnd⟩ := hnodup
    simp only [List.foldl_cons]
    rcases List.mem_cons.mp hmem with heq | hmem'
    · subst heq
      have huntouched : ∀ x ∈ rest, x.variant_id ≠ some vid := by
        intro x hx hcon
        apply hnotin
        have hpid : x.product_id = r0.product_id :=
          hsame x (List.mem_cons_of_mem _ hx) hcon
        have hkey : recKey r0 = recKey x := by
          simp [recKey, hv, hcon, hpid]
        rw [hkey]
        exact List.mem_map_of_mem _ hx
      rw [varView_resFold_untouched rest _ _ huntouched, varView_res]
      by_cases htrk : prodTrack s r0.product_id = some true
      · rw [if_pos (show r0.variant_id = some vid ∧
            prodTrack s r0.product_id = some true from ⟨hv, htrk⟩), if_pos htrk]
      · rw [if_neg (show ¬(r0.variant_id = some vid ∧
            prodTrack s r0.product_id = some true) from fun hc => htrk hc.2),
          if_neg htrk]
    · have hne : r.variant_id ≠ some vid := by
        intro hcon
        apply hnotin
        have hpid : r.product_id = r0.product_id :=
          hsame r (List.mem_cons_self _ _) hcon
        have hkey : recKey r = recKey r0 := by
          simp [recKey, hcon, hpid, hv]
        rw [hkey]
        exact List.mem_map_of_mem _ hmem'
      rw [ih (cancel_restore_item s r) r0 vid hmem' hv hnd
          (fun x hx hcon => hsame x (List.mem_cons_of_mem _ hx) hcon),
        prodTrack_res, varView_res,
        if_neg (show ¬(r.variant_id = some vid ∧
          prodTrack s r.product_id = some true) from fun hc => hne hc.1)]

/-- Helper: facts established by a successful per-line validation. -/
theorem validate_item_ok (s : Store) (hwf : Store.WF s) (it : OrderItemCreate)
    (rec : OrderItemRec) (h : validate_item s it = Except.ok rec) :
    rec.product_id = it.product_id ∧ rec.variant_id = it.variant_id ∧
    rec.quantity = it.quantity ∧ itemStockOK s it := by
  unfold validate_item at h
  cases hp : s.prod it.product_id with
  | none => rw [hp] at h; exact Except.noConfusion h
  | some p =>
    rw [hp] at h
    dsimp only at h
    split at h
    · exact Except.noConfusion h
    cases hv : it.variant_id with
    | none =>
      rw [hv] at h
      dsimp only at h
      split at h
      · exact Except.noConfusion h
      rename_i hguard
      injection h with h1
      subst h1
      refine ⟨hwf.1 _ _ hp, rfl, rfl, p, hp, ?_⟩
      rw [hv]
      intro htr
      simp only [Bool.and_eq_true, decide_eq_true_eq, not_and, not_lt] at hguard
      exact hguard htr
    | some vid =>
      rw [hv] at h
      dsimp only at h
      cases hvv : s.var vid with
      | none => rw [hvv] at h; exact Except.noConfusion h
      | some v =>
        rw [hvv] at h
        simp only [Option.bind] at h
        by_cases hvp : v.product_id = it.product_id
        · rw [if_pos hvp] at h
          dsimp only at h
          by_cases hav : (!v.is_in_stock || !v.is_active) = true
          · rw [if_pos hav] at h
            exact Except.noConfusion h
          · rw [if_neg hav] at h
            dsimp only at h
            split at h
            · exact Except.noConfusion h
            rename_i hguard
            injection h with h1
            subst h1
            refine ⟨hwf.1 _ _ hp, ?_, rfl, p, hp, ?_⟩
            · simp only [Option.map_some']
              rw [hwf.2 _ _ hvv]
            · rw [hv]
              exact ⟨v, hvv, hvp, fun htr => by
                simp only [Bool.and_eq_true, decide_eq_true_eq, not_and, not_lt] at hguard
                exact hguard htr⟩
        · rw [if_neg hvp] at h
          exact Except.noConfusion h

/-- Helper: facts established by the whole validation loop. -/
theorem validate_items_ok (s : Store) (hwf : Store.WF s) :
    ∀ (li : List OrderItemCreate) (lr : List OrderItemRec),
      validate_items s li = Except.ok lr →
      List.Forall₂ (fun it rec => rec.product_id = it.product_id ∧
        rec.variant_id = it.variant_id ∧ rec.quantity = it.quantity) li lr ∧
      ∀ it ∈ li, itemStockOK s it := by
  intro li
  induction li with
  | nil =>
    intro lr h
    simp only [validate_items] at h
    injection h with h1
    subst h1
    exact ⟨List.Forall₂.nil, by simp⟩
  | cons it rest ih =>
    intro lr h
    simp only [validate_items] at h
    cases hv : validate_item s it with
    | error e => rw [hv] at h; exact Except.noConfusion h
    | ok rec =>
      rw [hv] at h
      cases hrest : validate_items s rest with
      | error e => rw [hrest] at h; exact Except.noConfusion h
      | ok recs =>
        rw [hrest] at h
        injection h with h1
        subst h1
        obtain ⟨halign, hstock⟩ := ih recs hrest
        obtain ⟨h1, h2, h3, h4⟩ := validate_item_ok s hwf it rec hv
        refine ⟨List.Forall₂.cons ⟨h1, h2, h3⟩ halign, ?_⟩
        intro x hx
        rcases List.mem_cons.mp hx with heq | hmem
        · subst heq; exact h4
        · exact hstock x hmem

/-- Helper: elements on the left of a `Forall₂` have related partners. -/
theorem forall₂_mem_left {α β : Type _} {R : α → β → Prop} :
    ∀ {l1 : List α} {l2 : List β}, List.Forall₂ R l1 l2 →
      ∀ a ∈ l1, ∃ b ∈ l2, R a b := by
  intro l1 l2 h
  induction h with
  | nil => intro a ha; exact absurd ha (List.not_mem_nil _)
  | cons hr _ ih =>
    intro a ha
    rcases List.mem_cons.mp ha with heq | hmem
    · subst heq; exact ⟨_, List.mem_cons_self _ _, hr⟩
    · obtain ⟨b, hb, hrb⟩ := ih a hmem
      exact ⟨b, List.mem_cons_of_mem _ hb, hrb⟩

/-- Helper: elements on the right of a `Forall₂` have related partners. -/
theorem forall₂_mem_right {α β : Type _} {R : α → β → Prop} :
    ∀ {l1 : List α} {l2 : List β}, List.Forall₂ R l1 l2 →
      ∀ b ∈ l2, ∃ a ∈ l1, R a b := by
  intro l1 l2 h
  induction h with
  | nil => intro b hb; exact absurd hb (List.not_mem_nil _)
  | cons hr _ ih =>
    intro b hb
    rcases List.mem_cons.mp hb with heq | hmem
    · subst heq; exact ⟨_, List.mem_cons_self _ _, hr⟩
    · obtain ⟨a, ha, hra⟩ := ih b hmem
      exact ⟨a, List.mem_cons_of_mem _ ha, hra⟩

/-- Helper: aligned order lines address the same counters as their request
lines, in the same sequence. -/
theorem forall₂_keys_eq :
    ∀ {li : List OrderItemCreate} {lr : List OrderItemRec},
      List.Forall₂ (fun it rec => rec.product_id = it.product_id ∧
        rec.variant_id = it.variant_id ∧ rec.quantity = it.quantity) li lr →
      lr.map recKey = li.map itemKey := by
  intro li lr h
  induction h with
  | nil => rfl
  | cons hr _ ih =>
    simp only [List.map_cons, ih, List.cons.injEq, and_true]
    simp [recKey, itemKey, hr.1, hr.2.1]

/-- Helper: with distinct line keys and validated availability, restoring
after decrementing returns every product inventory to its original value. -/
theorem roundtrip_prod (s : Store) (li : List OrderItemCreate)
    (lr : List OrderItemRec)
    (halign : List.Forall₂ (fun it rec => rec.product_id = it.product_id ∧
      rec.variant_id = it.variant_id ∧ rec.quantity = it.quantity) li lr)
    (hnodup : (li.map itemKey).Nodup)
    (hstock : ∀ it ∈ li, itemStockOK s it) (pid : ℤ) :
    prodView (lr.foldl cancel_restore_item (li.foldl order_decrement_item s)) pid =
      prodView s pid := by
  by_cases hex : ∃ it0, it0 ∈ li ∧ it0.product_id = pid ∧ it0.variant_id = none
  · obtain ⟨it0, hmem, hpid, hv⟩ := hex
    subst hpid
    obtain ⟨rec0, hrmem, hr1, hr2, hr3⟩ := forall₂_mem_left halign it0 hmem
    have hrnodup : (lr.map recKey).Nodup := by
      rw [forall₂_keys_eq halign]; exact hnodup
    have hres := prodView_resFold_touch lr (li.foldl order_decrement_item s) rec0
      hrmem (by rw [hr2, hv]) hrnodup
    rw [hr1] at hres
    rw [hres, prodView_decFold_touch li s it0 hmem hv hnodup]
    obtain ⟨p, hp, hstk⟩ := hstock it0 hmem
    rw [hv] at hstk
    rw [show prodView s it0.product_id =
      some (p.track_inventory, p.inventory_count) from by simp [prodView, hp]]
    simp only [Option.map_some']
    by_cases htr : p.track_inventory = true
    · have hle : it0.quantity ≤ p.inventory_count := hstk htr
      have hiq : (0 : ℤ) ⊔ (p.inventory_count - it0.quantity) + it0.quantity =
          p.inventory_count := by
        rw [sup_eq_max]; omega
      simp [htr, hr3, hiq]
    · have htr' : p.track_inventory = false := by
        revert htr; cases p.track_inventory <;> simp
      simp [htr']
  · have huntouch : ∀ it ∈ li, ¬(pid = it.product_id ∧ it.variant_id = none) :=
      fun it hit hcon => hex ⟨it, hit, hcon.1.symm, hcon.2⟩
    have hruntouch : ∀ r ∈ lr, ¬(pid = r.product_id ∧ r.variant_id = none) := by
      intro r hr hcon
      obtain ⟨x, hx, hx1, hx2, _⟩ := forall₂_mem_right halign r hr
      exact hex ⟨x, hx, by rw [← hx1, ← hcon.1], by rw [← hx2, hcon.2]⟩
    rw [prodView_resFold_untouched _ _ _ hruntouch,
      prodView_decFold_untouched _ _ _ huntouch]

/-- Helper: with distinct line keys and validated availability, restoring
after decrementing returns every variant inventory to its original value. -/
theorem roundtrip_var (s : Store) (li : List OrderItemCreate)
    (lr : List OrderItemRec)
    (halign : List.Forall₂ (fun it rec => rec.product_id = it.product_id ∧
      rec.variant_id = it.variant_id ∧ rec.quantity = it.quantity) li lr)
    (hnodup : (li.map itemKey).Nodup)
    (hstock : ∀ it ∈ li, itemStockOK s it) (vid : ℤ) :
    varView (lr.foldl cancel_restore_item (li.foldl order_decrement_item s)) vid =
      varView s vid := by
  by_cases hex : ∃ it0, it0 ∈ li ∧ it0.variant_id = some vid
  · obtain ⟨it0, hmem, hv⟩ := hex
    have hsame : ∀ it ∈ li, it.variant_id = some vid →
        it.product_id = it0.product_id := by
      intro x hx hxv
      obtain ⟨px, hpx, hsx⟩ := hstock x hx
      rw [hxv] at hsx
      obtain ⟨vx, hvx, hvxp, _⟩ := hsx
      obtain ⟨p0, hp0, hs0⟩ := hstock it0 hmem
      rw [hv] at hs0
      obtain ⟨v0, hv0, hv0p, _⟩ := hs0
      rw [hvx] at hv0
      injection hv0 with hveq
      rw [← hvxp, hveq, hv0p]
    obtain ⟨rec0, hrmem, hr1, hr2, hr3⟩ := forall₂_mem_left halign it0 hmem
    have hrnodup : (lr.map recKey).Nodup := by
      rw [forall₂_keys_eq halign]; exact hnodup
    have hrsame : ∀ r ∈ lr, r.variant_id = some vid →
        r.product_id = rec0.product_id := by
      intro r hr hrv
      obtain ⟨x, hx, hx1, hx2, _⟩ := forall₂_mem_right halign r hr
      rw [hx1, hr1]
      exact hsame x hx (by rw [← hx2, hrv])
    have hres := varView_resFold_touch lr (li.foldl order_decrement_item s) rec0
      vid hrmem (by rw [hr2, hv]) hrnodup hrsame
    rw [hr1, prodTrack_decFold] at hres
    rw [hres, varView_decFold_touch li s it0 vid hmem hv hnodup hsame]
    obtain ⟨p, hp, hstk⟩ := hstock it0 hmem
    rw [hv] at hstk
    obtain ⟨v, hvv, hvp, hle⟩ := hstk
    by_cases htrk : prodTrack s it0.product_id = some true
    · rw [if_pos htrk, if_pos htrk]
      have htr : p.track_inventory = true := by
        simp only [prodTrack, hp, Option.map_some'] at htrk
        injection htrk
      have hq := hle htr
      rw [show varView s vid = some (v.product_id, v.inventory_count) from
        by simp [varView, hvv]]
      have hiq : (0 : ℤ) ⊔ (v.inventory_count - it0.quantity) + it0.quantity =
          v.inventory_count := by
        rw [sup_eq_max]; omega
      simp [hr3, hiq]
    · rw [if_neg htrk, if_neg htrk]
  · have huntouch : ∀ it ∈ li, it.variant_id ≠ some vid :=
      fun it hit hcon => hex ⟨it, hit, hcon⟩
    have hruntouch : ∀ r ∈ lr, r.variant_id ≠ some vid := by
      intro r hr hcon
      obtain ⟨x, hx, _, hx2, _⟩ := forall₂_mem_right halign r hr
      exact hex ⟨x, hx, by rw [← hx2, hcon]⟩
    rw [varView_resFold_untouched _ _ _ hruntouch,
      varView_decFold_untouched _ _ _ huntouch]

/-- C6 amended: when the order's lines address pairwise distinct inventory
counters (no product/variant repeated across lines — with repeated lines the
clamped decrement loses stock and cancellation over-restores, see the
counterexample), cancelling a freshly created order restores every product
and variant inventory and the user's points balance to their pre-order
values. -/
theorem claim_C6_cancel_restores (env : Env) (uid : ℤ) (od : OrderCreateData)
    (oid : ℤ) (onum : String) (o o2 : OrderRec) (env' env'' : Env)
    (hwf : Store.WF env.store)
    (hcreate : create_order env uid od oid onum = Except.ok (o, env'))
    (hnodup : (od.items.map itemKey).Nodup)
    (hup : 0 ≤ od.use_points.getD 0)
    (hsub : 0 ≤ o.subtotal)
    (hcancel : cancel_order env' o = Except.ok (o2, env'')) :
    (∀ pid, prodView env''.store pid = prodView env.store pid) ∧
    (∀ vid, varView env''.store vid = varView env.store vid) ∧
    (∀ j, ((env''.users j).bind (fun u => u.profile)).map
        (fun pr => pr.current_points_balance) =
      ((env.users j).bind (fun u => u.profile)).map
        (fun pr => pr.current_points_balance)) := by
  simp only [create_order] at hcreate
  split at hcreate
  · exact Except.noConfusion hcreate
  rename_i user huser
  split at hcreate
  · exact Except.noConfusion hcreate
  rename_i recs hrecs
  split at hcreate
  · exact Except.noConfusion hcreate
  rename_i couponApplied hcoup
  split at hcreate
  · exact Except.noConfusion hcreate
  rename_i pd pu hpoints
  injection hcreate with h2
  injection h2 with h3 h4
  subst h4
  subst h3
  simp only [cancel_order, OrderRec.can_cancel, decide_True, Bool.true_or,
    Bool.not_true, Bool.false_eq_true, if_false] at hcancel
  injection hcancel with h5
  injection h5 with h6 h7
  subst h7
  obtain ⟨halign, hstock⟩ := validate_items_ok env.store hwf od.items recs hrecs
  refine ⟨?_, ?_, ?_⟩
  · intro pid
    exact roundtrip_prod env.store od.items recs halign hnodup hstock pid
  · intro vid
    exact roundtrip_var env.store od.items recs halign hnodup hstock vid
  · intro j
    by_cases hcond : (optIntTruthy od.use_points && user.profile.isSome) = true
    · rw [if_pos hcond] at hpoints
      simp only [apply_points_discount] at hpoints
      split at hpoints
      · exact Except.noConfusion hpoints
      rename_i hbal
      injection hpoints with hpp
      injection hpp with hpd hpu
      subst hpd
      subst hpu
      have hips : user.profile.isSome = true := (Bool.and_eq_true _ _ |>.mp hcond).2
      obtain ⟨prof, hprof⟩ := Option.isSome_iff_exists.mp hips
      rw [hprof] at hbal
      simp only [Option.map_some', Option.getD_some, not_lt] at hbal
      have hpv : (0:ℚ) < points_value := by norm_num [points_value]
      have hsub' : (0:ℚ) ≤ (List.map (fun x => x.total_price) recs).sum := hsub
      have hd0 : (0:ℚ) ≤ min ((od.use_points.getD 0 : ℚ) * points_value)
          (List.map (fun x => x.total_price) recs).sum :=
        le_min (mul_nonneg (by exact_mod_cast hup) hpv.le) hsub'
      have hdivle : min ((od.use_points.getD 0 : ℚ) * points_value)
          (List.map (fun x => x.total_price) recs).sum / points_value ≤
          (od.use_points.getD 0 : ℚ) := by
        rw [div_le_iff hpv]
        exact min_le_left _ _
      have hpule : pyInt (min ((od.use_points.getD 0 : ℚ) * points_value)
          (List.map (fun x => x.total_price) recs).sum / points_value) ≤
          od.use_points.getD 0 := by
        rw [pyInt_eq_floor _ (div_nonneg hd0 hpv.le)]
        calc ⌊min ((od.use_points.getD 0 : ℚ) * points_value)
              (List.map (fun x => x.total_price) recs).sum / points_value⌋
            ≤ ⌊(od.use_points.getD 0 : ℚ)⌋ := Int.floor_le_floor hdivle
          _ = od.use_points.getD 0 := Int.floor_intCast _
      have hble : pyInt (min ((od.use_points.getD 0 : ℚ) * points_value)
          (List.map (fun x => x.total_price) recs).sum / points_value) ≤
          prof.current_points_balance := le_trans hpule hbal
      by_cases hpupos : 0 < pyInt (min ((od.use_points.getD 0 : ℚ) * points_value)
          (List.map (fun x => x.total_price) recs).sum / points_value)
      · by_cases hj : j = uid
        · subst hj
          simp [hpupos, hprof, huser, UserProfile.spend_points,
            UserProfile.add_points, hble]
        · simp [hj, hpupos, hprof, huser]
      · by_cases hj : j = uid
        · subst hj
          simp [hpupos, hprof, huser]
        · simp [hj, hpupos, hprof]
    · rw [if_neg hcond] at hpoints
      injection hpoints with hpp
      injection hpp with hpd hpu
      subst hpd
      subst hpu
      simp

/-- C6 counterexample: an order with two separate lines of 3 units of the
same tracked product (5 in stock) passes per-line validation, the clamped
decrement leaves inventory at 0 instead of −1, and cancellation then restores
3 + 3 units, ending at 6 ≠ 5 — inventory is not restored to its pre-order
value. -/
theorem claim_C6_duplicate_line_counterexample :
    (c6Env.store.prod 1).map (fun p => p.inventory_count) = some 5 ∧
    ((create_order c6Env 7 c6Od 42 "ORD-6").bind
      (fun r => (cancel_order r.2 r.1).map
        (fun r2 => (r2.2.store.prod 1).map (fun p => p.inventory_count)))) =
      Except.ok (some 6) ∧
    ¬ ((6 : ℤ) = 5) := by
  refine ⟨by norm_num [c6Env, exStore, exProd], ?_, by norm_num⟩
  norm_num [create_order, cancel_order, c6Env, c6Od, exStore, exUser, exProd,
    validate_items, validate_item, Product.is_in_stock, calculate_shipping_cost,
    snapshotIsDigitalLookup, optIntTruthy, Except.map, Except.bind, Option.map,
    Option.getD, order_decrement_item, cancel_restore_item, Store.updateProd,
    Store.updateVar, Product.decrease_inventory, Product.increase_inventory,
    Product.increment_purchase_count, OrderRec.can_cancel, points_value, pyInt,
    ORDER_POINTS_RATE,
    show pyLower "Kenya" = "kenya" from by decide]

/-- Witness for C6 at the fixture order (single line, coupon, 800 points):
creating and then cancelling restores inventories and the points balance. -/
theorem claim_C6_cancel_restores_witness :
    ∃ o env' o2 env'',
      create_order exEnv 7 exOd 42 "ORD-1" = Except.ok (o, env') ∧
      cancel_order env' o = Except.ok (o2, env'') ∧
      ((∀ pid, prodView env''.store pid = prodView exEnv.store pid) ∧
       (∀ vid, varView env''.store vid = varView exEnv.store vid) ∧
       (∀ j, ((env''.users j).bind (fun u => u.profile)).map
          (fun pr => pr.current_points_balance) =
        ((exEnv.users j).bind (fun u => u.profile)).map
          (fun pr => pr.current_points_balance))) := by
  have hwf : Store.WF exEnv.store := by
    constructor
    · intro pid p h
      simp only [exEnv, exStore] at h
      split at h
      · rename_i h1
        injection h with h2
        subst h2
        rw [h1]
        rfl
      · exact Option.noConfusion h
    · intro vid v h
      simp only [exEnv, exStore] at h
      exact Option.noConfusion h
  have hok2 : ((create_order exEnv 7 exOd 42 "ORD-1").bind
      (fun r => cancel_order r.2 r.1)).isOk = true := by
    norm_num [create_order, cancel_order, exEnv, exOd, exStore, exUser, exCoupon,
      exProd, validate_items, validate_item, Product.is_in_stock,
      calculate_shipping_cost, snapshotIsDigitalLookup, apply_coupon,
      Coupon.is_valid, Coupon.calculate_discount, couponUserUsageCount,
      optIntTruthy, optRatTruthy, apply_points_discount, points_value, pyInt,
      Except.map, Except.bind, Option.map, Option.getD, Except.isOk, Except.toBool,
      order_decrement_item, cancel_restore_item, Store.updateProd, Store.updateVar,
      Product.decrease_inventory, Product.increase_inventory,
      Product.increment_purchase_count, OrderRec.can_cancel,
      UserProfile.spend_points, ORDER_POINTS_RATE,
      show pyUpper "save5" = "SAVE5" from by decide,
      show pyLower "Kenya" = "kenya" from by decide,
      show ("fixed_amount" : String) ≠ "percentage" from by decide]
  have hsubeq : (create_order exEnv 7 exOd 42 "ORD-1").map
      (fun r => r.1.subtotal) = Except.ok 10 := by
    norm_num [create_order, exEnv, exOd, exStore, exUser, exCoupon, exProd,
      validate_items, validate_item, Product.is_in_stock, calculate_shipping_cost,
      snapshotIsDigitalLookup, apply_coupon, Coupon.is_valid,
      Coupon.calculate_discount, couponUserUsageCount, optIntTruthy, optRatTruthy,
      apply_points_discount, points_value, pyInt, Except.map, Option.map,
      Option.getD, ORDER_POINTS_RATE,
      show pyUpper "save5" = "SAVE5" from by decide,
      show pyLower "Kenya" = "kenya" from by decide,
      show ("fixed_amount" : String) ≠ "percentage" from by decide]
  rcases hc : create_order exEnv 7 exOd 42 "ORD-1" with e | ⟨o, env'⟩
  · rw [hc] at hok2
    simp [Except.bind, Except.isOk, Except.toBool] at hok2
  · rcases hc2 : cancel_order env' o with e2 | ⟨o2, env''⟩
    · rw [hc] at hok2
      simp only [Except.bind] at hok2
      rw [hc2] at hok2
      simp [Except.isOk, Except.toBool] at hok2
    · rw [hc] at hsubeq
      simp only [Except.map] at hsubeq
      injection hsubeq with hsub10
      refine ⟨o, env', o2, env'', rfl, hc2,
        claim_C6_cancel_restores exEnv 7 exOd 42 "ORD-1" o o2 env' env'' hwf hc
          (by decide) (by decide) (by rw [hsub10]; norm_num) hc2⟩
